import Mathlib

/-
Verification development for the D4C manga downloader
(source files m4l.py and M4L2.py, class MangaDownloader).

Shallow embedding conventions:
 - Python strings are modelled as lists of code points (List Nat); the
   helper `lit` converts a Lean string literal to that form.
 - Character classes model the ASCII fragment of Python's semantics:
   str.upper / str.lower / str.title act on ASCII letters, and the regex
   class backslash-s is modelled by the six ASCII whitespace code points.
 - The network is an oracle `Net : Req → Response` mapping each GET the
   program can issue (chapter viewer page, its index-2 variant, page
   image) to an HTTP status and body.  Transport exceptions are not
   modelled separately: at every call site that catches them the source
   treats them exactly like a non-200 status.
 - The filesystem is a record of created directories (as segment paths),
   written files, and the raw content of download_history.txt.
 - Python exceptions (ValueError from int(), ZeroDivisionError,
   KeyError) are modelled with Except Err; the unbounded page-probing
   while-loop takes explicit fuel, with Err.diverge marking exhaustion.
-/

/-- Code points of a Lean string literal (model of a Python str). -/
def lit (s : String) : List Nat := s.data.map Char.toNat

/-- Python regex class backslash-s restricted to ASCII: space, tab, LF, VT, FF, CR.
Also the set stripped by str.strip(). -/
def isPySpace (c : Nat) : Bool := c == 32 || (decide (9 ≤ c) && decide (c ≤ 13))

/-- ASCII lowercase letter. -/
def isAsciiLower (c : Nat) : Bool := decide (97 ≤ c) && decide (c ≤ 122)

/-- ASCII uppercase letter. -/
def isAsciiUpper (c : Nat) : Bool := decide (65 ≤ c) && decide (c ≤ 90)

/-- ASCII letter (the cased characters of the ASCII fragment). -/
def isAsciiAlpha (c : Nat) : Bool := isAsciiLower c || isAsciiUpper c

/-- ASCII decimal digit. -/
def isDigitCp (c : Nat) : Bool := decide (48 ≤ c) && decide (c ≤ 57)

/-- Line-break code points recognised by str.splitlines (ASCII fragment
plus NEL and the Unicode line/paragraph separators). -/
def isLineBreak (c : Nat) : Bool :=
  c == 10 || c == 13 || c == 11 || c == 12 ||
  c == 28 || c == 29 || c == 30 || c == 133 || c == 8232 || c == 8233

/-- str.upper on one ASCII character. -/
def pyToUpper (c : Nat) : Nat := if isAsciiLower c then c - 32 else c

/-- str.lower on one ASCII character. -/
def pyToLower (c : Nat) : Nat := if isAsciiUpper c then c + 32 else c

/-- str.upper on a whole string. -/
def pyUpperList (l : List Nat) : List Nat := l.map pyToUpper

/-- One step of str.title: a cased character is uppercased when the
previous character was not cased, lowercased otherwise. -/
def pyTitleChar (prevAlpha : Bool) (c : Nat) : Nat :=
  if isAsciiAlpha c then (if prevAlpha then pyToLower c else pyToUpper c) else c

/-- str.title over a string; the Bool tracks whether the previous
character was cased. -/
def pyTitle : Bool → List Nat → List Nat
  | _, [] => []
  | b, c :: rest => pyTitleChar b c :: pyTitle (isAsciiAlpha c) rest

/-- re.sub(r'backslash-s+', '-', s): every maximal run of whitespace is
replaced by a single hyphen (code point 45). -/
def collapseWs : List Nat → List Nat
  | [] => []
  | [c] => if isPySpace c then [45] else [c]
  | c :: d :: rest =>
    if isPySpace c then
      (if isPySpace d then collapseWs (d :: rest) else 45 :: collapseWs (d :: rest))
    else c :: collapseWs (d :: rest)

/-- The slug derivation inlined in MangaDownloader.__init__ (m4l.py lines
26-32, M4L2.py lines 19-23): optional case transform (skipped in edit
mode, upper-case when the uppercase flag is set, else title-case),
then whitespace runs collapsed to a hyphen. -/
def slugify (t : List Nat) (uppercase edit : Bool) : List Nat :=
  collapseWs (if edit then t else if uppercase then pyUpperList t else pyTitle false t)

/-- str.strip(): drop whitespace from both ends. -/
def stripWs (l : List Nat) : List Nat :=
  ((l.dropWhile isPySpace).reverse.dropWhile isPySpace).reverse

/-- Value of a nonempty all-digit string, else none. -/
def digitsToNat (l : List Nat) : Option Nat :=
  if l ≠ [] ∧ ∀ c ∈ l, isDigitCp c = true then
    some (l.foldl (fun acc c => acc * 10 + (c - 48)) 0)
  else none

/-- Python int(str): optional surrounding whitespace, optional sign,
then decimal digits (digit-grouping underscores are not modelled). -/
def pyInt (s : List Nat) : Option Int :=
  match stripWs s with
  | [] => none
  | c :: ds =>
    if c = 43 then (digitsToNat ds).map Int.ofNat
    else if c = 45 then (digitsToNat ds).map (fun n => -(n : Int))
    else (digitsToNat (c :: ds)).map Int.ofNat

/-- Decimal digits (as code points) of a natural number; fuel-structural. -/
def natDigitsAux : Nat → Nat → List Nat
  | 0, _ => []
  | fuel + 1, n =>
    if n < 10 then [48 + n] else natDigitsAux fuel (n / 10) ++ [48 + n % 10]

/-- Decimal rendering of a natural number. -/
def natDigits (n : Nat) : List Nat := natDigitsAux (n + 1) n

/-- Left-pad with ASCII zeros to the given width. -/
def padZeros (w : Nat) (l : List Nat) : List Nat :=
  List.replicate (w - l.length) 48 ++ l

/-- Python format spec 04d on an int: zero-padded to total width 4,
any minus sign included in the width. -/
def pad4 (i : Int) : List Nat :=
  if i < 0 then 45 :: padZeros 3 (natDigits i.natAbs) else padZeros 4 (natDigits i.toNat)

/-- Python format spec 03d on a page index. -/
def pad3 (n : Nat) : List Nat := padZeros 3 (natDigits n)

/-- str.split('.'): split on every dot (code point 46). -/
def splitOnDot : List Nat → List (List Nat)
  | [] => [[]]
  | c :: rest =>
    if c = 46 then [] :: splitOnDot rest
    else
      match splitOnDot rest with
      | [] => [[c]]
      | h :: t => (c :: h) :: t

/-- str.splitlines with an accumulator of the current (reversed) line. -/
def splitlinesAux : List Nat → List Nat → List (List Nat)
  | [], acc => if acc.isEmpty then [] else [acc.reverse]
  | 13 :: 10 :: rest, acc => acc.reverse :: splitlinesAux rest []
  | c :: rest, acc =>
    if isLineBreak c then acc.reverse :: splitlinesAux rest []
    else splitlinesAux rest (c :: acc)

/-- str.splitlines. -/
def pySplitlines (s : List Nat) : List (List Nat) := splitlinesAux s []

/-! ## Data model: network oracle, filesystem state, downloader instance -/

/-- An HTTP response: status code and body (the body is only inspected
for viewer pages). -/
structure Response where
  status : Nat
  body : List Nat
deriving DecidableEq

/-- The GET requests the program issues.  `viewer` is the chapter viewer
page read-online/<slug>-chapter-<tok>.html, `viewerAlt` its -index-2
variant, `page` the image https://<addr>/manga/<slug>/<tok>-<idx 03d>.png. -/
inductive Req where
  | viewer (slug tok : List Nat)
  | viewerAlt (slug tok : List Nat)
  | page (addr slug tok : List Nat) (idx : Nat)
deriving DecidableEq

/-- The network oracle: what each GET returns. -/
def Net : Type := Req → Response

/-- URL string of a request, following the exact source templates
(m4l.py lines 54-56, 89, 97). -/
def Req.url : Req → List Nat
  | .viewer slug tok =>
      lit "https://manga4life.com/read-online/" ++ slug ++ lit "-chapter-" ++ tok ++ lit ".html"
  | .viewerAlt slug tok =>
      lit "https://manga4life.com/read-online/" ++ slug ++ lit "-chapter-" ++ tok ++ lit "-index-2.html"
  | .page addr slug tok idx =>
      lit "https://" ++ addr ++ lit "/manga/" ++ slug ++ lit "/" ++ tok ++ lit "-" ++ pad3 idx ++ lit ".png"

/-- Python exceptions that can escape, plus a marker for running the
unbounded probe loop out of fuel. -/
inductive Err where
  | valueError
  | zeroDiv
  | keyError
  | diverge
deriving DecidableEq

/-- Filesystem state: directories (as segment paths), written files, and
the content of download_history.txt (none = file does not exist). -/
structure FS where
  dirs : List (List (List Nat))
  files : List (List (List Nat))
  ledger : Option (List Nat)
deriving DecidableEq

/-- Append an element if it is not already present (set-like update). -/
def addIfAbsent {α : Type} [DecidableEq α] (x : α) (l : List α) : List α :=
  if x ∈ l then l else l ++ [x]

/-- All nonempty prefixes of a segment path. -/
def pathPrefixes (p : List (List Nat)) : List (List (List Nat)) :=
  (List.range p.length).map (fun i => p.take (i + 1))

/-- Path.mkdir(parents=True, exist_ok=True): create the directory and
all its ancestors. -/
def mkdirParents (p : List (List Nat)) (fs : FS) : FS :=
  { fs with dirs := (pathPrefixes p).foldl (fun d q => addIfAbsent q d) fs.dirs }

/-- The fields of a MangaDownloader instance set up by __init__. -/
structure MangaDownloader where
  manga_name : List Nat
  formatted_manga_name : List Nat
  manga_folder : List (List Nat)
deriving DecidableEq

/-- MangaDownloader.__init__ (m4l.py lines 22-37, M4L2.py lines 18-28):
derive display name and slug, create MANGA/<slug> on disk. -/
def mkDownloader (raw : List Nat) (uppercase edit : Bool) (fs : FS) : MangaDownloader × FS :=
  let name := if edit then raw else if uppercase then pyUpperList raw else pyTitle false raw
  let slug := collapseWs name
  let folder := [lit "MANGA", slug]
  (⟨name, slug, folder⟩, mkdirParents folder fs)

/-- Insertion-ordered dict update (Python dict assignment d[k] = v). -/
def dictInsert (l : List (List Nat × Nat)) (k : List Nat) (v : Nat) : List (List Nat × Nat) :=
  match l with
  | [] => [(k, v)]
  | (k2, v2) :: rest => if k2 = k then (k2, v) :: rest else (k2, v2) :: dictInsert rest k v

/-- Dict lookup. -/
def dictLookup (l : List (List Nat × Nat)) (k : List Nat) : Option Nat :=
  match l with
  | [] => none
  | (k2, v) :: rest => if k2 = k then some v else dictLookup rest k

/-! ## Program embedding (m4l.py unless noted otherwise) -/

/-- format_chapter_number (m4l.py lines 39-48): split on '.', parse the
integer part, zero-pad to width 4, reattach the decimal suffix.  none
models the uncaught ValueError (unparsable integer part, or a
multi-dot string making the 2-tuple unpacking fail). -/
def format_chapter_number (s : List Nat) : Option (List Nat) :=
  if 46 ∈ s then
    match splitOnDot s with
    | [a, b] =>
      match pyInt a with
      | some i => some (pad4 i ++ 46 :: b)
      | none => none
    | _ => none
  else
    match pyInt s with
    | some i => some (pad4 i)
    | none => none

/-- Match the regex vm backslash-dot CurPathName backslash-s* = backslash-s*
"([^"]+)" at the start of the list; return the capture.  The pattern is
deterministic: no backtracking is possible, so greedy scanning is exact. -/
def matchCurPath (l : List Nat) : Option (List Nat) :=
  match (lit "vm.CurPathName").isPrefixOf l with
  | false => none
  | true =>
    let r1 := (l.drop (lit "vm.CurPathName").length).dropWhile isPySpace
    match r1 with
    | 61 :: r2 =>
      match r2.dropWhile isPySpace with
      | 34 :: r3 =>
        let cap := r3.takeWhile (fun c => c != 34)
        match cap, r3.dropWhile (fun c => c != 34) with
        | [], _ => none
        | _ :: _, 34 :: _ => some cap
        | _ :: _, _ => none
      | _ => none
    | _ => none

/-- pattern.findall(html)[0]: the leftmost match wins. -/
def findFirst : List Nat → Option (List Nat)
  | [] => none
  | c :: rest =>
    match matchCurPath (c :: rest) with
    | some cap => some cap
    | none => findFirst rest

/-- extract_text_from_html (m4l.py lines 76-82): first regex match or None. -/
def extract_text_from_html (html : List Nat) : Option (List Nat) :=
  findFirst html

/-- Python truthiness of the optional extracted string (None and the
empty string are falsy). -/
def isTruthyOpt : Option (List Nat) → Bool
  | some (_ :: _) => true
  | _ => false

/-- extract_text_from_url (m4l.py lines 84-108, M4L2.py lines 64-87):
GET the primary viewer page; on 200 extract the routing token from the
body; if the extraction is falsy, GET the -index-2 variant and, when
that returns 200, extract from its body instead.  On a non-200 primary
response return None immediately (no alternate attempt).  Returns the
extraction outcome together with the list of GETs issued. -/
def extract_text_from_url (net : Net) (d : MangaDownloader) (chapter_number : List Nat) :
    Except Err (Option (List Nat)) × List Req :=
  match format_chapter_number chapter_number with
  | none => (.error .valueError, [])
  | some fmt =>
    let r := Req.viewer d.formatted_manga_name fmt
    let resp := net r
    if resp.status = 200 then
      let a1 := extract_text_from_html resp.body
      if isTruthyOpt a1 then (.ok a1, [r])
      else
        let r2 := Req.viewerAlt d.formatted_manga_name fmt
        let resp2 := net r2
        let a2 := if resp2.status = 200 then extract_text_from_html resp2.body else a1
        (.ok a2, [r, r2])
    else (.ok none, [r])

/-- The unbounded existence-probe loop of count_pages_in_chapter
(m4l.py lines 117-127): GET page images from index `png` upward,
counting consecutive 200s, stopping at the first other status. -/
def probeLoop (net : Net) (slug fmt addr : List Nat) : Nat → Nat → Nat → Except Err Nat × List Req
  | 0, _, _ => (.error .diverge, [])
  | fuel + 1, png, acc =>
    let r := Req.page addr slug fmt png
    if (net r).status = 200 then
      match probeLoop net slug fmt addr fuel (png + 1) (acc + 1) with
      | (res, reqs) => (res, r :: reqs)
    else (.ok acc, [r])

/-- count_pages_in_chapter (m4l.py lines 110-128, M4L2.py lines 89-104):
format the chapter number, resolve the routing token, and if it is
truthy count pages from index 1; otherwise return 0. -/
def count_pages_in_chapter (net : Net) (d : MangaDownloader) (chapter_number : List Nat)
    (fuel : Nat) : Except Err Nat × List Req :=
  match format_chapter_number chapter_number with
  | none => (.error .valueError, [])
  | some fmt =>
    match extract_text_from_url net d fmt with
    | (.error e, reqs) => (.error e, reqs)
    | (.ok (some (c :: cs)), reqs) =>
      match probeLoop net d.formatted_manga_name fmt (c :: cs) fuel 1 0 with
      | (res, reqs2) => (res, reqs ++ reqs2)
    | (.ok _, reqs) => (.ok 0, reqs)

/-- colorful_progress_bar (m4l.py lines 130-149): clamps current to
total and renders current/total; raises ZeroDivisionError when total is
0.  The returned value is the clamped current shown to the observer. -/
def colorful_progress_bar (current total : Nat) : Except Err Nat :=
  if total = 0 then .error .zeroDiv else .ok (min current total)

/-- download_image (m4l.py lines 58-74): on 200 create the parent
directory, write the file and return True; otherwise (or on a transport
error) return False. -/
def download_image (net : Net) (r : Req) (path : List (List Nat)) (fs : FS) :
    (Bool × FS) × List Req :=
  if (net r).status = 200 then
    let fs1 := mkdirParents path.dropLast fs
    ((true, { fs1 with files := addIfAbsent path fs1.files }), [r])
  else ((false, fs), [r])

deriving instance DecidableEq for Except

/-- Output of the per-chapter fetch routine: result (True when the
routing token resolved), filesystem, GETs issued, and the batch progress
values reported to the observer, in order. -/
structure DlOut where
  res : Except Err Bool
  fs : FS
  reqs : List Req
  reports : List Nat
deriving DecidableEq

/-- Output of the batch driver. -/
structure BatchOut where
  res : Except Err Unit
  fs : FS
  reqs : List Req
  reports : List Nat
deriving DecidableEq

/-- The page loop of download_chapter_images (m4l.py lines 161-167):
download each listed page; on a successful write report
chapter_index * total_pages + png clamped by the batch total. -/
def downloadPages (net : Net) (d : MangaDownloader) (fmt addr : List Nat)
    (folder : List (List Nat)) (chapter_index total_pages totalBatch : Nat) :
    List Nat → FS → Except Err Unit × FS × List Req × List Nat
  | [], fs => (.ok (), fs, [], [])
  | png :: rest, fs =>
    let r := Req.page addr d.formatted_manga_name fmt png
    let path := folder ++ [pad3 png ++ lit ".png"]
    match download_image net r path fs with
    | ((true, fs1), reqs1) =>
      match colorful_progress_bar (chapter_index * total_pages + png) totalBatch with
      | .error e => (.error e, fs1, reqs1, [])
      | .ok v =>
        match downloadPages net d fmt addr folder chapter_index total_pages totalBatch rest fs1 with
        | (res, fs2, reqs2, reps) => (res, fs2, reqs1 ++ reqs2, v :: reps)
    | ((false, fs1), reqs1) =>
      match downloadPages net d fmt addr folder chapter_index total_pages totalBatch rest fs1 with
      | (res, fs2, reqs2, reps) => (res, fs2, reqs1 ++ reqs2, reps)

/-- download_chapter_images (m4l.py lines 151-171): re-resolve the
routing token; if truthy, create the chapter folder and download pages
1..total_pages (the count handed over from the counting pass), else
return False.  Returns True whenever the token resolved. -/
def download_chapter_images (net : Net) (d : MangaDownloader) (chapter_number : List Nat)
    (total_pages chapter_index totalBatch : Nat) (fs : FS) : DlOut :=
  match format_chapter_number chapter_number with
  | none => ⟨.error .valueError, fs, [], []⟩
  | some fmt =>
    match extract_text_from_url net d fmt with
    | (.error e, reqs) => ⟨.error e, fs, reqs, []⟩
    | (.ok (some (c :: cs)), reqs) =>
      let folder := d.manga_folder ++ [lit "Chapter-" ++ fmt]
      let fs1 := mkdirParents folder fs
      match downloadPages net d fmt (c :: cs) folder chapter_index total_pages totalBatch
          (List.range' 1 total_pages) fs1 with
      | (.error e, fs2, reqs2, reps) => ⟨.error e, fs2, reqs ++ reqs2, reps⟩
      | (.ok (), fs2, reqs2, reps) => ⟨.ok true, fs2, reqs ++ reqs2, reps⟩
    | (.ok _, reqs) => ⟨.ok false, fs, reqs, []⟩

/-- The counting pass of download_chapters (m4l.py lines 183-187):
probe every requested chapter once, collecting a dict of per-chapter
counts and their sum. -/
def countLoop (net : Net) (d : MangaDownloader) (fuel : Nat) :
    List (List Nat) → List (List Nat × Nat) → Nat →
    Except Err (List (List Nat × Nat) × Nat) × List Req
  | [], acc, total => (.ok (acc, total), [])
  | t :: rest, acc, total =>
    match count_pages_in_chapter net d t fuel with
    | (.error e, reqs) => (.error e, reqs)
    | (.ok n, reqs) =>
      match countLoop net d fuel rest (dictInsert acc t n) (total + n) with
      | (res, reqs2) => (res, reqs ++ reqs2)

/-- The fetch pass of download_chapters (m4l.py lines 198-202): for every
requested chapter, in submission order and regardless of its counted
page count, look its count up in the dict and run
download_chapter_images. -/
def fetchLoop (net : Net) (d : MangaDownloader) (pages : List (List Nat × Nat)) (totalBatch : Nat) :
    List (List Nat) → Nat → FS → Except Err Unit × FS × List Req × List Nat
  | [], _, fs => (.ok (), fs, [], [])
  | t :: rest, idx, fs =>
    match dictLookup pages t with
    | none => (.error .keyError, fs, [], [])
    | some tp =>
      match download_chapter_images net d t tp idx totalBatch fs with
      | ⟨.error e, fs1, reqs1, reps1⟩ => (.error e, fs1, reqs1, reps1)
      | ⟨.ok _, fs1, reqs1, reps1⟩ =>
        match fetchLoop net d pages totalBatch rest (idx + 1) fs1 with
        | (res, fs2, reqs2, reps2) => (res, fs2, reqs1 ++ reqs2, reps1 ++ reps2)

/-- The read-then-conditional-append content transformation of
save_history (m4l.py lines 216-221): append title plus newline unless
the title is already one of the content's lines. -/
def save_history_content (content title : List Nat) : List Nat :=
  if title ∈ pySplitlines content then content else content ++ title ++ [10]

/-- save_history (m4l.py lines 210-222, M4L2.py lines 173-182): touch
the ledger if missing, then apply the deduplicating append. -/
def save_history (title : List Nat) (fs : FS) : FS :=
  let content := match fs.ledger with | none => [] | some c => c
  { fs with ledger := some (save_history_content content title) }

/-- load_history (m4l.py lines 224-237): display the ledger lines; reads
only, the filesystem is returned unchanged. -/
def load_history (fs : FS) : List (List Nat) × FS :=
  (match fs.ledger with | none => [] | some c => pySplitlines c, fs)

/-- download_chapters (m4l.py lines 173-208): counting pass, confirmation
gate comparing input().strip().upper() with 'Y', fetch pass over every
requested chapter, forced 100% progress report, ledger append. -/
def download_chapters (net : Net) (d : MangaDownloader) (chapters : List (List Nat))
    (user_input : List Nat) (fuel : Nat) (fs : FS) : BatchOut :=
  match countLoop net d fuel chapters [] 0 with
  | (.error e, reqs) => ⟨.error e, fs, reqs, []⟩
  | (.ok (pages, total), reqs) =>
    if pyUpperList (stripWs user_input) = lit "Y" then
      match fetchLoop net d pages total chapters 0 fs with
      | (.error e, fs1, reqs2, reps) => ⟨.error e, fs1, reqs ++ reqs2, reps⟩
      | (.ok (), fs1, reqs2, reps) =>
        match colorful_progress_bar total total with
        | .error e => ⟨.error e, fs1, reqs ++ reqs2, reps⟩
        | .ok v => ⟨.ok (), save_history d.manga_name fs1, reqs ++ reqs2, reps ++ [v]⟩
    else ⟨.ok (), fs, reqs, []⟩

/-! ## The M4L2.py fetch-pass variant -/

/-- The page download loop of M4L2.py download_chapter_images (lines
128-135); the rich per-chapter progress is display-only and not recorded. -/
def M4L2_downloadLoop (net : Net) (d : MangaDownloader) (fmt addr : List Nat)
    (folder : List (List Nat)) : List Nat → FS → FS × List Req
  | [], fs => (fs, [])
  | png :: rest, fs =>
    let r := Req.page addr d.formatted_manga_name fmt png
    let path := folder ++ [pad3 png ++ lit ".png"]
    match download_image net r path fs with
    | ((_, fs1), reqs1) =>
      match M4L2_downloadLoop net d fmt addr folder rest fs1 with
      | (fs2, reqs2) => (fs2, reqs1 ++ reqs2)

/-- download_chapter_images of the M4L2.py variant (lines 106-138):
re-resolve the routing token, create the chapter folder, then RE-RUN the
page-count probe sequence (lines 113-123) before downloading pages
1..total_pages; the counting-pass result is not consulted.  Returns
total_pages > 0. -/
def M4L2_download_chapter_images (net : Net) (d : MangaDownloader) (chapter_number : List Nat)
    (fuel : Nat) (fs : FS) : Except Err Bool × FS × List Req :=
  match format_chapter_number chapter_number with
  | none => (.error .valueError, fs, [])
  | some fmt =>
    match extract_text_from_url net d fmt with
    | (.error e, reqs) => (.error e, fs, reqs)
    | (.ok (some (c :: cs)), reqs) =>
      let folder := d.manga_folder ++ [lit "Chapter-" ++ fmt]
      let fs1 := mkdirParents folder fs
      match probeLoop net d.formatted_manga_name fmt (c :: cs) fuel 1 0 with
      | (.error e, reqs2) => (.error e, fs1, reqs ++ reqs2)
      | (.ok total_pages, reqs2) =>
        match M4L2_downloadLoop net d fmt (c :: cs) folder (List.range' 1 total_pages) fs1 with
        | (fs2, reqs3) => (.ok (decide (0 < total_pages)), fs2, reqs ++ reqs2 ++ reqs3)
    | (.ok _, reqs) => (.ok false, fs, reqs)

/-! ## Concrete fixtures for counterexamples and witnesses -/

/-- Empty filesystem. -/
def fs0 : FS := ⟨[], [], none⟩

/-- A downloader instance for the title "One Piece" in default mode. -/
def d0 : MangaDownloader := (mkDownloader (lit "One Piece") false false fs0).1

/-- A viewer-page body containing the routing token pattern with value h. -/
def tokBody : List Nat := lit "var x; vm.CurPathName = \"h\"; done"

/-- 200 response carrying `tokBody`. -/
def okViewer : Response := ⟨200, tokBody⟩

/-- Plain 404. -/
def notFound : Response := ⟨404, []⟩

/-- Oracle for the C2 demonstration: every viewer page resolves; chapter
0001 has pages 1..5, chapter 0002 has page 1 only. -/
def net2 : Net := fun r =>
  match r with
  | .viewer _ _ => okViewer
  | .viewerAlt _ _ => notFound
  | .page _ _ tok idx =>
    if tok = lit "0001" then (if idx ≤ 5 then ⟨200, []⟩ else notFound)
    else if tok = lit "0002" then (if idx ≤ 1 then ⟨200, []⟩ else notFound)
    else notFound

/-- Oracle whose primary viewer page 404s while the alternate viewer
page carries a valid token body. -/
def net1 : Net := fun r =>
  match r with
  | .viewer _ _ => notFound
  | .viewerAlt _ _ => okViewer
  | .page _ _ _ _ => notFound

/-- Oracle with resolving viewer pages and exactly two pages per chapter. -/
def netW : Net := fun r =>
  match r with
  | .viewer _ _ => okViewer
  | .viewerAlt _ _ => notFound
  | .page _ _ _ idx => if idx ≤ 2 then ⟨200, []⟩ else notFound

/-- Oracle where chapter 0001 has one page and chapter 0002 resolves its
token but has no page at all (its count is 0). -/
def net6 : Net := fun r =>
  match r with
  | .viewer _ _ => okViewer
  | .viewerAlt _ _ => notFound
  | .page _ _ tok idx =>
    if tok = lit "0001" then (if idx ≤ 1 then ⟨200, []⟩ else notFound) else notFound

/-- Oracle that refuses everything. -/
def net404 : Net := fun _ => notFound

/-- A well-formed ledger file: the given lines, each newline-terminated. -/
def mkLedger (ls : List (List Nat)) : List Nat :=
  ls.foldr (fun l acc => l ++ 10 :: acc) []

/-! ## Character-level lemmas -/

theorem isAsciiLower_iff (c : Nat) : isAsciiLower c = true ↔ 97 ≤ c ∧ c ≤ 122 := by
  simp [isAsciiLower]

theorem isAsciiUpper_iff (c : Nat) : isAsciiUpper c = true ↔ 65 ≤ c ∧ c ≤ 90 := by
  simp [isAsciiUpper]

theorem isAsciiAlpha_iff (c : Nat) :
    isAsciiAlpha c = true ↔ (97 ≤ c ∧ c ≤ 122) ∨ (65 ≤ c ∧ c ≤ 90) := by
  simp [isAsciiAlpha, isAsciiLower, isAsciiUpper]

theorem isPySpace_iff (c : Nat) : isPySpace c = true ↔ c = 32 ∨ (9 ≤ c ∧ c ≤ 13) := by
  simp [isPySpace]

theorem pyToUpper_idem (c : Nat) : pyToUpper (pyToUpper c) = pyToUpper c := by
  unfold pyToUpper
  by_cases h : isAsciiLower c = true
  · rw [if_pos h]
    rw [isAsciiLower_iff] at h
    have h2 : isAsciiLower (c - 32) = false := by
      rw [← Bool.not_eq_true, isAsciiLower_iff]; omega
    simp [h2]
  · rw [Bool.not_eq_true] at h
    simp [h]

theorem pyToLower_idem (c : Nat) : pyToLower (pyToLower c) = pyToLower c := by
  unfold pyToLower
  by_cases h : isAsciiUpper c = true
  · rw [if_pos h]
    rw [isAsciiUpper_iff] at h
    have h2 : isAsciiUpper (c + 32) = false := by
      rw [← Bool.not_eq_true, isAsciiUpper_iff]; omega
    simp [h2]
  · rw [Bool.not_eq_true] at h
    simp [h]

theorem isAsciiAlpha_pyToUpper (c : Nat) : isAsciiAlpha (pyToUpper c) = isAsciiAlpha c := by
  unfold pyToUpper
  by_cases h : isAsciiLower c = true
  · rw [if_pos h]
    rw [isAsciiLower_iff] at h
    rw [Bool.eq_iff_iff, isAsciiAlpha_iff, isAsciiAlpha_iff]
    omega
  · rw [Bool.not_eq_true] at h
    simp [h]

theorem isAsciiAlpha_pyToLower (c : Nat) : isAsciiAlpha (pyToLower c) = isAsciiAlpha c := by
  unfold pyToLower
  by_cases h : isAsciiUpper c = true
  · rw [if_pos h]
    rw [isAsciiUpper_iff] at h
    rw [Bool.eq_iff_iff, isAsciiAlpha_iff, isAsciiAlpha_iff]
    omega
  · rw [Bool.not_eq_true] at h
    simp [h]

theorem isPySpace_pyToUpper (c : Nat) : isPySpace (pyToUpper c) = isPySpace c := by
  unfold pyToUpper
  by_cases h : isAsciiLower c = true
  · rw [if_pos h]
    rw [isAsciiLower_iff] at h
    rw [Bool.eq_iff_iff, isPySpace_iff, isPySpace_iff]
    omega
  · rw [Bool.not_eq_true] at h
    simp [h]

theorem isPySpace_pyToLower (c : Nat) : isPySpace (pyToLower c) = isPySpace c := by
  unfold pyToLower
  by_cases h : isAsciiUpper c = true
  · rw [if_pos h]
    rw [isAsciiUpper_iff] at h
    rw [Bool.eq_iff_iff, isPySpace_iff, isPySpace_iff]
    omega
  · rw [Bool.not_eq_true] at h
    simp [h]

theorem pyTitleChar_idem (b : Bool) (c : Nat) :
    pyTitleChar b (pyTitleChar b c) = pyTitleChar b c := by
  unfold pyTitleChar
  by_cases h : isAsciiAlpha c = true
  · rw [if_pos h]
    cases b
    · simp only [Bool.false_eq_true, if_false, isAsciiAlpha_pyToUpper, h, if_true,
        pyToUpper_idem]
    · simp only [if_true, isAsciiAlpha_pyToLower, h, pyToLower_idem]
  · rw [Bool.not_eq_true] at h
    simp [h]

theorem isAsciiAlpha_pyTitleChar (b : Bool) (c : Nat) :
    isAsciiAlpha (pyTitleChar b c) = isAsciiAlpha c := by
  unfold pyTitleChar
  by_cases h : isAsciiAlpha c = true
  · rw [if_pos h]
    cases b
    · simp [isAsciiAlpha_pyToUpper, h]
    · simp [isAsciiAlpha_pyToLower, h]
  · rw [Bool.not_eq_true] at h
    simp [h]

theorem isPySpace_pyTitleChar (b : Bool) (c : Nat) :
    isPySpace (pyTitleChar b c) = isPySpace c := by
  unfold pyTitleChar
  by_cases h : isAsciiAlpha c = true
  · rw [if_pos h]
    cases b
    · simp [isPySpace_pyToUpper]
    · simp [isPySpace_pyToLower]
  · rw [Bool.not_eq_true] at h
    simp [h]

theorem pyTitleChar_ws (b : Bool) (c : Nat) (h : isPySpace c = true) :
    pyTitleChar b c = c := by
  have ha : isAsciiAlpha c = false := by
    rw [← Bool.not_eq_true, isAsciiAlpha_iff]
    rw [isPySpace_iff] at h
    omega
  simp [pyTitleChar, ha]

theorem pyTitleChar_hyphen (b : Bool) : pyTitleChar b 45 = 45 := by
  cases b <;> decide

theorem ws_not_alpha (c : Nat) (h : isPySpace c = true) : isAsciiAlpha c = false := by
  rw [← Bool.not_eq_true, isAsciiAlpha_iff]
  rw [isPySpace_iff] at h
  omega

/-! ## collapseWs and case-transform lemmas -/

theorem collapseWs_one (c : Nat) :
    collapseWs [c] = if isPySpace c = true then [45] else [c] := by
  rw [collapseWs]

theorem collapseWs_cons2 (c d : Nat) (rest : List Nat) :
    collapseWs (c :: d :: rest) =
      if isPySpace c = true then
        (if isPySpace d = true then collapseWs (d :: rest) else 45 :: collapseWs (d :: rest))
      else c :: collapseWs (d :: rest) := by
  rw [collapseWs]

theorem collapseWs_noWs : ∀ l : List Nat, ∀ x ∈ collapseWs l, isPySpace x = false
  | [] => by simp [collapseWs]
  | [c] => by
    intro x hx
    unfold collapseWs at hx
    by_cases h : isPySpace c = true
    · rw [if_pos h] at hx
      simp at hx
      subst hx
      decide
    · rw [Bool.not_eq_true] at h
      simp [h] at hx
      subst hx
      exact h
  | c :: d :: rest => by
    intro x hx
    unfold collapseWs at hx
    by_cases hc : isPySpace c = true
    · rw [if_pos hc] at hx
      by_cases hd : isPySpace d = true
      · rw [if_pos hd] at hx
        exact collapseWs_noWs (d :: rest) x hx
      · rw [Bool.not_eq_true] at hd
        simp only [hd, Bool.false_eq_true, if_false, List.mem_cons] at hx
        rcases hx with hx | hx
        · subst hx; decide
        · exact collapseWs_noWs (d :: rest) x hx
    · rw [Bool.not_eq_true] at hc
      simp only [hc, Bool.false_eq_true, if_false, List.mem_cons] at hx
      rcases hx with hx | hx
      · subst hx; exact hc
      · exact collapseWs_noWs (d :: rest) x hx

theorem collapseWs_id : ∀ l : List Nat, (∀ x ∈ l, isPySpace x = false) → collapseWs l = l
  | [] => fun _ => rfl
  | [c] => by
    intro h
    have hc := h c (by simp)
    simp [collapseWs, hc]
  | c :: d :: rest => by
    intro h
    have hc := h c (by simp)
    unfold collapseWs
    simp only [hc, Bool.false_eq_true, if_false, List.cons.injEq, true_and]
    exact collapseWs_id (d :: rest) (fun x hx => h x (List.mem_cons_of_mem c hx))

theorem collapseWs_idem (l : List Nat) : collapseWs (collapseWs l) = collapseWs l :=
  collapseWs_id _ (collapseWs_noWs l)

theorem collapseWs_ws_head :
    ∀ (rest : List Nat) (d : Nat), isPySpace d = true →
      ∃ xs, collapseWs (d :: rest) = 45 :: xs
  | [], d => fun h => ⟨[], by simp [collapseWs, h]⟩
  | e :: rest, d => fun h => by
    unfold collapseWs
    rw [if_pos h]
    by_cases he : isPySpace e = true
    · rw [if_pos he]
      exact collapseWs_ws_head rest e he
    · rw [Bool.not_eq_true] at he
      simp only [he, Bool.false_eq_true, if_false]
      exact ⟨collapseWs (e :: rest), rfl⟩

theorem pyUpperList_collapseWs :
    ∀ l : List Nat, pyUpperList (collapseWs l) = collapseWs (pyUpperList l)
  | [] => rfl
  | [c] => by
    unfold collapseWs pyUpperList
    by_cases h : isPySpace c = true
    · rw [if_pos h]
      simp only [List.map_cons, List.map_nil]
      rw [if_pos (by rw [isPySpace_pyToUpper]; exact h)]
      decide
    · rw [Bool.not_eq_true] at h
      simp only [h, Bool.false_eq_true, if_false, List.map_cons, List.map_nil]
      rw [if_neg (by rw [isPySpace_pyToUpper, h]; simp)]
  | c :: d :: rest => by
    have hrec := pyUpperList_collapseWs (d :: rest)
    unfold collapseWs
    by_cases hc : isPySpace c = true
    · rw [if_pos hc]
      by_cases hd : isPySpace d = true
      · rw [if_pos hd]
        simp only [pyUpperList, List.map_cons]
        rw [if_pos (by rw [isPySpace_pyToUpper]; exact hc)]
        rw [if_pos (by rw [isPySpace_pyToUpper]; exact hd)]
        exact hrec
      · rw [Bool.not_eq_true] at hd
        simp only [hd, Bool.false_eq_true, if_false]
        simp only [pyUpperList, List.map_cons]
        rw [if_pos (by rw [isPySpace_pyToUpper]; exact hc)]
        rw [if_neg (by rw [isPySpace_pyToUpper, hd]; simp)]
        simp only [List.cons.injEq]
        exact ⟨by decide, hrec⟩
    · rw [Bool.not_eq_true] at hc
      simp only [hc, Bool.false_eq_true, if_false]
      simp only [pyUpperList, List.map_cons]
      rw [if_neg (by rw [isPySpace_pyToUpper, hc]; simp)]
      simp only [List.cons.injEq, true_and]
      exact hrec

theorem pyUpperList_idem (l : List Nat) : pyUpperList (pyUpperList l) = pyUpperList l := by
  induction l with
  | nil => rfl
  | cons c rest ih =>
    simp only [pyUpperList, List.map_cons] at ih ⊢
    rw [pyToUpper_idem]
    exact congrArg _ ih

theorem pyTitle_idem : ∀ (b : Bool) (l : List Nat), pyTitle b (pyTitle b l) = pyTitle b l
  | _, [] => rfl
  | b, c :: rest => by
    simp only [pyTitle]
    rw [pyTitleChar_idem, isAsciiAlpha_pyTitleChar]
    exact congrArg _ (pyTitle_idem (isAsciiAlpha c) rest)

theorem pyTitle_hyphen (b : Bool) (xs : List Nat) :
    pyTitle b (45 :: xs) = 45 :: pyTitle false xs := by
  have h45 : isAsciiAlpha 45 = false := by decide
  simp [pyTitle, pyTitleChar_hyphen, h45]

theorem pyTitle_collapseWs :
    ∀ (l : List Nat) (b : Bool), pyTitle b (collapseWs l) = collapseWs (pyTitle b l)
  | [], _ => rfl
  | [c], b => by
    rw [collapseWs_one]
    by_cases h : isPySpace c = true
    · rw [if_pos h]
      simp only [pyTitle, pyTitleChar_ws b c h]
      rw [collapseWs_one, if_pos h, pyTitleChar_hyphen]
    · rw [Bool.not_eq_true] at h
      simp only [h, Bool.false_eq_true, if_false, pyTitle]
      rw [collapseWs_one, if_neg (by rw [isPySpace_pyTitleChar, h]; simp)]
  | c :: d :: rest, b => by
    by_cases hc : isPySpace c = true
    · by_cases hd : isPySpace d = true
      · -- both whitespace: the run collapses; title state resets either way
        have hstep : collapseWs (c :: d :: rest) = collapseWs (d :: rest) := by
          rw [collapseWs_cons2, if_pos hc, if_pos hd]
        rw [hstep]
        obtain ⟨xs, hxs⟩ := collapseWs_ws_head rest d hd
        have hL : pyTitle b (collapseWs (d :: rest)) = pyTitle false (collapseWs (d :: rest)) := by
          rw [hxs, pyTitle_hyphen, pyTitle_hyphen]
        rw [hL, pyTitle_collapseWs (d :: rest) false]
        have hRa : pyTitle b (c :: d :: rest) = c :: pyTitle false (d :: rest) := by
          simp only [pyTitle, pyTitleChar_ws b c hc, ws_not_alpha c hc]
        have hRb : pyTitle false (d :: rest) = d :: pyTitle false rest := by
          simp only [pyTitle, pyTitleChar_ws false d hd, ws_not_alpha d hd]
        rw [hRa, hRb]
        show collapseWs (d :: pyTitle false rest) = collapseWs (c :: d :: pyTitle false rest)
        rw [collapseWs_cons2 c d (pyTitle false rest), if_pos hc, if_pos hd]
      · rw [Bool.not_eq_true] at hd
        have hstep : collapseWs (c :: d :: rest) = 45 :: collapseWs (d :: rest) := by
          rw [collapseWs_cons2, if_pos hc]
          simp [hd]
        rw [hstep, pyTitle_hyphen, pyTitle_collapseWs (d :: rest) false]
        have hRa : pyTitle b (c :: d :: rest) = c :: pyTitle false (d :: rest) := by
          simp only [pyTitle, pyTitleChar_ws b c hc, ws_not_alpha c hc]
        rw [hRa]
        have hcons : pyTitle false (d :: rest)
            = pyTitleChar false d :: pyTitle (isAsciiAlpha d) rest := rfl
        rw [hcons]
        show 45 :: collapseWs (pyTitleChar false d :: pyTitle (isAsciiAlpha d) rest)
            = collapseWs (c :: pyTitleChar false d :: pyTitle (isAsciiAlpha d) rest)
        rw [collapseWs_cons2 c (pyTitleChar false d) (pyTitle (isAsciiAlpha d) rest), if_pos hc]
        rw [if_neg (by rw [isPySpace_pyTitleChar, hd]; simp)]
    · rw [Bool.not_eq_true] at hc
      have hstep : collapseWs (c :: d :: rest) = c :: collapseWs (d :: rest) := by
        rw [collapseWs_cons2]
        simp [hc]
      rw [hstep]
      have hLa : pyTitle b (c :: collapseWs (d :: rest))
          = pyTitleChar b c :: pyTitle (isAsciiAlpha c) (collapseWs (d :: rest)) := rfl
      rw [hLa, pyTitle_collapseWs (d :: rest) (isAsciiAlpha c)]
      have hRa : pyTitle b (c :: d :: rest)
          = pyTitleChar b c :: pyTitle (isAsciiAlpha c) (d :: rest) := rfl
      rw [hRa]
      have hcons : pyTitle (isAsciiAlpha c) (d :: rest)
          = pyTitleChar (isAsciiAlpha c) d :: pyTitle (isAsciiAlpha d) rest := rfl
      rw [hcons]
      show pyTitleChar b c :: collapseWs (pyTitleChar (isAsciiAlpha c) d :: pyTitle (isAsciiAlpha d) rest)
          = collapseWs (pyTitleChar b c :: pyTitleChar (isAsciiAlpha c) d :: pyTitle (isAsciiAlpha d) rest)
      rw [collapseWs_cons2 (pyTitleChar b c) (pyTitleChar (isAsciiAlpha c) d) (pyTitle (isAsciiAlpha d) rest)]
      rw [if_neg (by rw [isPySpace_pyTitleChar, hc]; simp)]

/-- C7: slugify is idempotent: for every title string t and every pair of
mode flags (uppercase, edit), slugify (slugify t u e) u e = slugify t u e,
where slugify applies the mode's case transform (identity in edit mode,
else uppercase or title-case) followed by replacing every maximal run of
whitespace with a single hyphen. -/
theorem C7_slugify_idempotent (t : List Nat) (uppercase edit : Bool) :
    slugify (slugify t uppercase edit) uppercase edit = slugify t uppercase edit := by
  unfold slugify
  cases edit
  · cases uppercase
    · simp only [Bool.false_eq_true, if_false]
      rw [pyTitle_collapseWs, pyTitle_idem, collapseWs_idem]
    · simp only [if_true, Bool.false_eq_true, if_false]
      rw [pyUpperList_collapseWs, pyUpperList_idem, collapseWs_idem]
  · simp only [if_true]
    exact collapseWs_idem t

/-! ## Claim C1: the primary-to-alternate fallback -/

/-- C1 (counterexample): with a primary viewer page answering 404 and an
alternate viewer page answering 200 with an extractable token, the
resolver returns Absent after issuing only the primary GET — contrary to
the claim, no GET against the -index-2 alternate URL is issued on a
non-200 primary status. -/
theorem C1_counterexample :
    extract_text_from_url net1 d0 (lit "0001")
        = (Except.ok none, [Req.viewer (lit "One-Piece") (lit "0001")])
      ∧ (net1 (Req.viewer (lit "One-Piece") (lit "0001"))).status ≠ 200
      ∧ (net1 (Req.viewerAlt (lit "One-Piece") (lit "0001"))).status = 200
      ∧ extract_text_from_html (net1 (Req.viewerAlt (lit "One-Piece") (lit "0001"))).body
          = some (lit "h") := by
  decide

/-- C1 (amended): the alternate -index-2 GET is issued exactly when the
primary GET returns 200 but the extraction on its body is falsy; a
non-200 primary response yields Absent immediately with no further GET;
when the alternate is attempted the identical first-match extraction is
applied to its body, and the result is Absent only if that also fails. -/
theorem C1_fallback_behavior (net : Net) (d : MangaDownloader) (tok fmt : List Nat)
    (hf : format_chapter_number tok = some fmt) :
    ((net (Req.viewer d.formatted_manga_name fmt)).status ≠ 200 →
      extract_text_from_url net d tok
        = (.ok none, [Req.viewer d.formatted_manga_name fmt]))
    ∧ ((net (Req.viewer d.formatted_manga_name fmt)).status = 200 →
      isTruthyOpt (extract_text_from_html
          (net (Req.viewer d.formatted_manga_name fmt)).body) = true →
      extract_text_from_url net d tok
        = (.ok (extract_text_from_html (net (Req.viewer d.formatted_manga_name fmt)).body),
           [Req.viewer d.formatted_manga_name fmt]))
    ∧ ((net (Req.viewer d.formatted_manga_name fmt)).status = 200 →
      isTruthyOpt (extract_text_from_html
          (net (Req.viewer d.formatted_manga_name fmt)).body) = false →
      extract_text_from_url net d tok
        = (.ok (if (net (Req.viewerAlt d.formatted_manga_name fmt)).status = 200 then
                  extract_text_from_html (net (Req.viewerAlt d.formatted_manga_name fmt)).body
                else
                  extract_text_from_html (net (Req.viewer d.formatted_manga_name fmt)).body),
           [Req.viewer d.formatted_manga_name fmt,
            Req.viewerAlt d.formatted_manga_name fmt])) := by
  refine ⟨fun h1 => ?_, fun h1 h2 => ?_, fun h1 h2 => ?_⟩
  · simp [extract_text_from_url, hf, h1]
  · simp [extract_text_from_url, hf, h1, h2]
  · simp [extract_text_from_url, hf, h1, h2]

/-- Witness for C1_fallback_behavior at a concrete oracle. -/
theorem C1_fallback_behavior_witness :
    extract_text_from_url net1 d0 (lit "1")
      = (.ok none, [Req.viewer (lit "One-Piece") (lit "0001")]) := by
  have h := C1_fallback_behavior net1 d0 (lit "1") (lit "0001") (by decide)
  have h2 := h.1 (by decide)
  have hd : d0.formatted_manga_name = lit "One-Piece" := by decide
  rw [hd] at h2
  exact h2

/-! ## Claim C5: the page-count probe -/

theorem probeLoop_exact (net : Net) (slug fmt addr : List Nat) (k : Nat)
    (h200 : ∀ i, 1 ≤ i → i ≤ k → (net (Req.page addr slug fmt i)).status = 200)
    (hmiss : (net (Req.page addr slug fmt (k + 1))).status ≠ 200) :
    ∀ fuel j acc, k + 2 ≤ j + fuel → 1 ≤ j → j ≤ k + 1 →
      probeLoop net slug fmt addr fuel j acc
        = (.ok (acc + (k + 1 - j)), (List.range' j (k + 2 - j)).map (Req.page addr slug fmt))
  | 0, j, acc => by omega
  | fuel + 1, j, acc => by
    intro hfuel hj1 hjk
    by_cases hje : j = k + 1
    · subst hje
      unfold probeLoop
      rw [if_neg hmiss]
      have hone : k + 2 - (k + 1) = 1 := by omega
      simp [hone, List.range']
    · have hjle : j ≤ k := by omega
      unfold probeLoop
      rw [if_pos (h200 j hj1 hjle)]
      rw [probeLoop_exact net slug fmt addr k h200 hmiss fuel (j + 1) (acc + 1)
            (by omega) (by omega) (by omega)]
      have h1 : acc + 1 + (k + 1 - (j + 1)) = acc + (k + 1 - j) := by omega
      have h2 : k + 2 - j = (k + 2 - (j + 1)) + 1 := by omega
      rw [h1, h2, List.range']
      simp

/-- C5: for every chapter and every k ≥ 0: if the routing-token resolver
returns Absent, count_pages returns 0; otherwise, against a page source
that answers 200 for page indices 1..k and non-200 for index k+1,
count_pages returns exactly k (the length of the maximal prefix of
200-responses starting at index 1), with no early termination for large
k (the fuel bound is arbitrary as long as it exceeds k). -/
theorem C5_count_pages (net : Net) (d : MangaDownloader) (tok fmt : List Nat)
    (hf : format_chapter_number tok = some fmt) (k fuel : Nat) (hfuel : k < fuel) :
    ((extract_text_from_url net d fmt).1 = .ok none →
      (count_pages_in_chapter net d tok fuel).1 = .ok 0)
    ∧ (∀ c cs, (extract_text_from_url net d fmt).1 = .ok (some (c :: cs)) →
        (∀ i, 1 ≤ i → i ≤ k →
          (net (Req.page (c :: cs) d.formatted_manga_name fmt i)).status = 200) →
        (net (Req.page (c :: cs) d.formatted_manga_name fmt (k + 1))).status ≠ 200 →
        (count_pages_in_chapter net d tok fuel).1 = .ok k) := by
  constructor
  · intro hA
    rcases hE : extract_text_from_url net d fmt with ⟨e, rs⟩
    rw [hE] at hA
    simp at hA
    subst hA
    simp [count_pages_in_chapter, hf, hE]
  · intro c cs hE2 h200 hmiss
    rcases hE : extract_text_from_url net d fmt with ⟨e, rs⟩
    rw [hE] at hE2
    simp at hE2
    subst hE2
    have hP := probeLoop_exact net d.formatted_manga_name fmt (c :: cs) k h200 hmiss
        fuel 1 0 (by omega) (by omega) (by omega)
    simp [count_pages_in_chapter, hf, hE, hP]

/-- Witness for C5_count_pages: the probe counts exactly 2 pages against
an oracle with two pages. -/
theorem C5_count_pages_witness :
    (count_pages_in_chapter netW d0 (lit "1") 10).1 = .ok 2 := by
  have h := C5_count_pages netW d0 (lit "1") (lit "0001") (by decide) 2 10 (by decide)
  have hd : d0.formatted_manga_name = lit "One-Piece" := by decide
  refine h.2 104 [] (by decide) ?_ ?_
  · intro i h1 h2
    rw [hd]
    have : i = 1 ∨ i = 2 := by omega
    rcases this with h3 | h3 <;> subst h3 <;> decide
  · rw [hd]; decide

/-! ## Claim C3: probing during the fetch pass -/

/-- C3 (counterexample): in the M4L2.py variant the fetch-pass routine
re-issues the probing sequence: against an oracle with 2 pages it GETs
page 1 twice (once probing, once downloading) and also GETs page 3 (the
probe miss), although the counting pass already probed the chapter. -/
theorem C3_counterexample :
    ((M4L2_download_chapter_images netW d0 (lit "1") 10 fs0).2.2).count
        (Req.page (lit "h") (lit "One-Piece") (lit "0001") 1) = 2
    ∧ ((M4L2_download_chapter_images netW d0 (lit "1") 10 fs0).2.2).count
        (Req.page (lit "h") (lit "One-Piece") (lit "0001") 3) = 1
    ∧ (count_pages_in_chapter netW d0 (lit "1") 10).1 = .ok 2 := by
  decide

theorem download_image_reqs (net : Net) (r : Req) (path : List (List Nat)) (fs : FS) :
    (download_image net r path fs).2 = [r] := by
  unfold download_image
  split <;> rfl

theorem downloadPages_reqs (net : Net) (d : MangaDownloader) (fmt addr : List Nat)
    (folder : List (List Nat)) (ci tp total : Nat) (htotal : total ≠ 0) :
    ∀ (pages : List Nat) (fs : FS),
      (downloadPages net d fmt addr folder ci tp total pages fs).2.2.1
        = pages.map (Req.page addr d.formatted_manga_name fmt)
  | [], _ => rfl
  | png :: rest, fs => by
    have hIH := downloadPages_reqs net d fmt addr folder ci tp total htotal rest
    unfold downloadPages
    dsimp only
    rcases hD : download_image net (Req.page addr d.formatted_manga_name fmt png)
        (folder ++ [pad3 png ++ lit ".png"]) fs with ⟨⟨b, fs1⟩, reqs1⟩
    have hreqs1 : reqs1 = [Req.page addr d.formatted_manga_name fmt png] := by
      have h2 := download_image_reqs net (Req.page addr d.formatted_manga_name fmt png)
          (folder ++ [pad3 png ++ lit ".png"]) fs
      rw [hD] at h2
      exact h2
    subst hreqs1
    cases b
    · rcases hR : downloadPages net d fmt addr folder ci tp total rest fs1
        with ⟨res2, fs2, reqs2, reps⟩
      have h3 := hIH fs1
      rw [hR] at h3
      simp only [hR]
      simpa using h3
    · have hcpb : colorful_progress_bar (ci * tp + png) total
          = .ok (min (ci * tp + png) total) := by
        simp [colorful_progress_bar, htotal]
      simp only [hcpb]
      rcases hR : downloadPages net d fmt addr folder ci tp total rest fs1
        with ⟨res2, fs2, reqs2, reps⟩
      have h3 := hIH fs1
      rw [hR] at h3
      simp only [hR]
      simpa using h3

theorem download_chapter_images_reqs (net : Net) (d : MangaDownloader) (tok fmt : List Nat)
    (c : Nat) (cs : List Nat) (rs : List Req) (tp ci total : Nat) (fs : FS)
    (hf : format_chapter_number tok = some fmt)
    (hE : extract_text_from_url net d fmt = (.ok (some (c :: cs)), rs))
    (htotal : total ≠ 0) :
    (download_chapter_images net d tok tp ci total fs).reqs
      = rs ++ (List.range' 1 tp).map (Req.page (c :: cs) d.formatted_manga_name fmt) := by
  unfold download_chapter_images
  simp only [hf]
  rw [hE]
  dsimp only
  rcases hDP : downloadPages net d fmt (c :: cs) (d.manga_folder ++ [lit "Chapter-" ++ fmt])
      ci tp total (List.range' 1 tp)
      (mkdirParents (d.manga_folder ++ [lit "Chapter-" ++ fmt]) fs) with ⟨res, fs2, reqs2, reps⟩
  have h3 := downloadPages_reqs net d fmt (c :: cs) (d.manga_folder ++ [lit "Chapter-" ++ fmt])
      ci tp total htotal (List.range' 1 tp)
      (mkdirParents (d.manga_folder ++ [lit "Chapter-" ++ fmt]) fs)
  rw [hDP] at h3
  simp only at h3
  subst h3
  cases res <;> rfl

theorem M4L2_downloadLoop_reqs (net : Net) (d : MangaDownloader) (fmt addr : List Nat)
    (folder : List (List Nat)) :
    ∀ (pages : List Nat) (fs : FS),
      (M4L2_downloadLoop net d fmt addr folder pages fs).2
        = pages.map (Req.page addr d.formatted_manga_name fmt)
  | [], _ => rfl
  | png :: rest, fs => by
    unfold M4L2_downloadLoop
    dsimp only
    rcases hD : download_image net (Req.page addr d.formatted_manga_name fmt png)
        (folder ++ [pad3 png ++ lit ".png"]) fs with ⟨⟨b, fs1⟩, reqs1⟩
    have hreqs1 : reqs1 = [Req.page addr d.formatted_manga_name fmt png] := by
      have h2 := download_image_reqs net (Req.page addr d.formatted_manga_name fmt png)
          (folder ++ [pad3 png ++ lit ".png"]) fs
      rw [hD] at h2
      exact h2
    subst hreqs1
    rcases hR : M4L2_downloadLoop net d fmt addr folder rest fs1 with ⟨fs2, reqs2⟩
    have h3 := M4L2_downloadLoop_reqs net d fmt addr folder rest fs1
    rw [hR] at h3
    simp only [hR]
    simpa using h3

theorem M4L2_fetch_reprobe_trace (net : Net) (d : MangaDownloader) (tok fmt : List Nat)
    (c : Nat) (cs : List Nat) (rs : List Req) (k fuel : Nat) (fs : FS)
    (hf : format_chapter_number tok = some fmt)
    (hE : extract_text_from_url net d fmt = (.ok (some (c :: cs)), rs))
    (h200 : ∀ i, 1 ≤ i → i ≤ k →
      (net (Req.page (c :: cs) d.formatted_manga_name fmt i)).status = 200)
    (hmiss : (net (Req.page (c :: cs) d.formatted_manga_name fmt (k + 1))).status ≠ 200)
    (hfuel : k < fuel) :
    (M4L2_download_chapter_images net d tok fuel fs).2.2
      = rs ++ (List.range' 1 (k + 1)).map (Req.page (c :: cs) d.formatted_manga_name fmt)
           ++ (List.range' 1 k).map (Req.page (c :: cs) d.formatted_manga_name fmt) := by
  unfold M4L2_download_chapter_images
  simp only [hf]
  rw [hE]
  dsimp only
  have hP := probeLoop_exact net d.formatted_manga_name fmt (c :: cs) k h200 hmiss
      fuel 1 0 (by omega) (by omega) (by omega)
  have hk1 : k + 1 - 1 = k := by omega
  have hk2 : k + 2 - 1 = k + 1 := by omega
  rw [hk1, hk2] at hP
  simp only [Nat.zero_add] at hP
  rw [hP]
  dsimp only
  rcases hL : M4L2_downloadLoop net d fmt (c :: cs) (d.manga_folder ++ [lit "Chapter-" ++ fmt])
      (List.range' 1 k)
      (mkdirParents (d.manga_folder ++ [lit "Chapter-" ++ fmt]) fs) with ⟨fs2, reqs3⟩
  have h3 := M4L2_downloadLoop_reqs net d fmt (c :: cs) (d.manga_folder ++ [lit "Chapter-" ++ fmt])
      (List.range' 1 k) (mkdirParents (d.manga_folder ++ [lit "Chapter-" ++ fmt]) fs)
  rw [hL] at h3
  simp only at h3
  subst h3
  simp [List.append_assoc]

/-- C3 (amended): in the m4l.py variant the page-count probe runs only in
the counting pass and the fetch-pass routine consumes the cached count:
its GET trace is exactly the token re-resolution followed by one download
GET per page index 1..count, with no probe sequence.  In the M4L2.py
variant the fetch-pass routine re-runs the probe sequence (one GET per
index 1..k+1) before the k download GETs, ignoring the cached count. -/
theorem C3_fetch_pass_probing (net : Net) (d : MangaDownloader) (tok fmt : List Nat)
    (c : Nat) (cs : List Nat) (rs : List Req) (tp ci total k fuel : Nat) (fs : FS)
    (hf : format_chapter_number tok = some fmt)
    (hE : extract_text_from_url net d fmt = (.ok (some (c :: cs)), rs))
    (htotal : total ≠ 0)
    (h200 : ∀ i, 1 ≤ i → i ≤ k →
      (net (Req.page (c :: cs) d.formatted_manga_name fmt i)).status = 200)
    (hmiss : (net (Req.page (c :: cs) d.formatted_manga_name fmt (k + 1))).status ≠ 200)
    (hfuel : k < fuel) :
    (download_chapter_images net d tok tp ci total fs).reqs
        = rs ++ (List.range' 1 tp).map (Req.page (c :: cs) d.formatted_manga_name fmt)
    ∧ (M4L2_download_chapter_images net d tok fuel fs).2.2
        = rs ++ (List.range' 1 (k + 1)).map (Req.page (c :: cs) d.formatted_manga_name fmt)
             ++ (List.range' 1 k).map (Req.page (c :: cs) d.formatted_manga_name fmt) :=
  ⟨download_chapter_images_reqs net d tok fmt c cs rs tp ci total fs hf hE htotal,
   M4L2_fetch_reprobe_trace net d tok fmt c cs rs k fuel fs hf hE h200 hmiss hfuel⟩

/-- Witness for C3_fetch_pass_probing at the two-page oracle. -/
theorem C3_fetch_pass_probing_witness :
    (download_chapter_images netW d0 (lit "1") 2 0 2 fs0).reqs
        = [Req.viewer (lit "One-Piece") (lit "0001")]
          ++ (List.range' 1 2).map (Req.page (lit "h") (lit "One-Piece") (lit "0001"))
    ∧ (M4L2_download_chapter_images netW d0 (lit "1") 10 fs0).2.2
        = [Req.viewer (lit "One-Piece") (lit "0001")]
          ++ (List.range' 1 3).map (Req.page (lit "h") (lit "One-Piece") (lit "0001"))
          ++ (List.range' 1 2).map (Req.page (lit "h") (lit "One-Piece") (lit "0001")) := by
  have hd : d0.formatted_manga_name = lit "One-Piece" := by decide
  have h := C3_fetch_pass_probing netW d0 (lit "1") (lit "0001") 104 []
      [Req.viewer (lit "One-Piece") (lit "0001")] 2 0 2 2 10 fs0
      (by decide) (by decide) (by decide)
      (by
        intro i h1 h2
        have h3 : i = 1 ∨ i = 2 := by omega
        rcases h3 with h3 | h3 <;> subst h3 <;> decide)
      (by decide) (by decide)
  rw [hd] at h
  exact h
/-! ## Claim C2: the batch-wide progress value -/

/-- C2 (code bug): in a batch of two chapters with counts 5 and 1 (all
page fetches succeeding) the batch denominator is 6 and six pages are
written, but the progress values reported to the observer are
[1,2,3,4,5,2,6]: after the 6th successful page write the reported
current value is 2 (computed as chapter_index * total_pages + png
= 1 * 1 + 1), not 6, and the sequence is not monotonically
non-decreasing (the 5th report is 5, the 6th is 2). -/
theorem C2_progress_bug :
    (download_chapters net2 d0 [lit "1", lit "2"] (lit "Y") 10 fs0).reports
        = [1, 2, 3, 4, 5, 2, 6]
    ∧ (download_chapters net2 d0 [lit "1", lit "2"] (lit "Y") 10 fs0).reports.get? 4 = some 5
    ∧ (download_chapters net2 d0 [lit "1", lit "2"] (lit "Y") 10 fs0).reports.get? 5 = some 2
    ∧ (countLoop net2 d0 10 [lit "1", lit "2"] [] 0).1
        = .ok ([(lit "1", 5), (lit "2", 1)], 6)
    ∧ (download_chapters net2 d0 [lit "1", lit "2"] (lit "Y") 10 fs0).fs.files.length = 6 := by
  decide

/-! ## Claim C6: zero-count chapters during the fetch pass -/

/-- C6 (counterexample): chapter 0002 counts 0 pages (its token resolves
but page 1 is missing), yet the fetch pass still issues its viewer-page
GET (two viewer GETs in total across both passes) and still creates the
MANGA/One-Piece/Chapter-0002 directory. -/
theorem C6_counterexample :
    ((download_chapters net6 d0 [lit "1", lit "2"] (lit "Y") 10 fs0).reqs.count
        (Req.viewer (lit "One-Piece") (lit "0002"))) = 2
    ∧ (d0.manga_folder ++ [lit "Chapter-" ++ lit "0002"])
        ∈ (download_chapters net6 d0 [lit "1", lit "2"] (lit "Y") 10 fs0).fs.dirs
    ∧ (countLoop net6 d0 10 [lit "1", lit "2"] [] 0).1
        = .ok ([(lit "1", 1), (lit "2", 0)], 1) := by
  decide

theorem extract_reqs_shape (net : Net) (d : MangaDownloader) (arg : List Nat)
    (v : Except Err (Option (List Nat))) (rs : List Req)
    (h : extract_text_from_url net d arg = (v, rs)) (hv : v ≠ .error Err.valueError) :
    ∃ fmt2, format_chapter_number arg = some fmt2 ∧
      (rs = [Req.viewer d.formatted_manga_name fmt2]
        ∨ rs = [Req.viewer d.formatted_manga_name fmt2,
                Req.viewerAlt d.formatted_manga_name fmt2]) := by
  unfold extract_text_from_url at h
  rcases hff : format_chapter_number arg with _ | fmt2
  · rw [hff] at h
    dsimp only at h
    exact absurd (congrArg Prod.fst h).symm hv
  · rw [hff] at h
    dsimp only at h
    refine ⟨fmt2, rfl, ?_⟩
    by_cases hs : (net (Req.viewer d.formatted_manga_name fmt2)).status = 200
    · rw [if_pos hs] at h
      by_cases ht : isTruthyOpt (extract_text_from_html
          (net (Req.viewer d.formatted_manga_name fmt2)).body) = true
      · rw [if_pos ht] at h
        exact Or.inl (congrArg Prod.snd h).symm
      · rw [if_neg ht] at h
        exact Or.inr (congrArg Prod.snd h).symm
    · rw [if_neg hs] at h
      exact Or.inl (congrArg Prod.snd h).symm

/-- C6 (amended): the fetch pass iterates over every requested chapter
regardless of its counted page count; for a chapter whose ChapterPlan
count is 0 it still re-resolves the routing token (issuing the viewer
GET trace of the resolver, which is nonempty) and, when the token
resolves, creates the chapter directory; only the page loop is skipped —
no page GET is issued and the routine reports success. -/
theorem C6_zero_count_fetch (net : Net) (d : MangaDownloader) (tok fmt : List Nat)
    (c : Nat) (cs : List Nat) (rs : List Req) (ci total : Nat) (fs : FS)
    (hf : format_chapter_number tok = some fmt)
    (hE : extract_text_from_url net d fmt = (.ok (some (c :: cs)), rs)) :
    (download_chapter_images net d tok 0 ci total fs).res = .ok true
    ∧ (download_chapter_images net d tok 0 ci total fs).reqs = rs
    ∧ rs ≠ []
    ∧ (∀ a s t i, Req.page a s t i ∉ (download_chapter_images net d tok 0 ci total fs).reqs)
    ∧ (download_chapter_images net d tok 0 ci total fs).fs
        = mkdirParents (d.manga_folder ++ [lit "Chapter-" ++ fmt]) fs := by
  obtain ⟨fmt2, _, hshape⟩ := extract_reqs_shape net d fmt (.ok (some (c :: cs))) rs hE
      (by intro h2; exact Except.noConfusion h2)
  have hmain : download_chapter_images net d tok 0 ci total fs
      = ⟨.ok true, mkdirParents (d.manga_folder ++ [lit "Chapter-" ++ fmt]) fs, rs, []⟩ := by
    unfold download_chapter_images
    simp only [hf]
    rw [hE]
    dsimp only [downloadPages, List.range']
    simp
  refine ⟨by rw [hmain], by rw [hmain], ?_, ?_, by rw [hmain]⟩
  · rcases hshape with h4 | h4 <;> rw [h4] <;> simp
  · intro a s t i
    rw [hmain]
    rcases hshape with h4 | h4 <;> rw [h4] <;> simp

/-- Witness for C6_zero_count_fetch at a concrete oracle. -/
theorem C6_zero_count_fetch_witness :
    (download_chapter_images net6 d0 (lit "2") 0 1 1 fs0).res = .ok true
    ∧ (download_chapter_images net6 d0 (lit "2") 0 1 1 fs0).reqs
        = [Req.viewer (lit "One-Piece") (lit "0002")] := by
  have h := C6_zero_count_fetch net6 d0 (lit "2") (lit "0002") 104 []
      [Req.viewer (lit "One-Piece") (lit "0002")] 1 1 fs0 (by decide) (by decide)
  exact ⟨h.1, h.2.1⟩

/-! ## Claim C8: the confirmation gate -/

/-- C8 (counterexample): the input " y" (with a leading space) is
neither "Y" nor "y", yet the batch proceeds: page files are written, the
ledger gains the title, and fetch-phase GETs are issued (the chapter
viewer page is requested a second time) — because the gate strips
whitespace before uppercasing and comparing. -/
theorem C8_counterexample :
    lit " y" ≠ lit "Y"
    ∧ lit " y" ≠ lit "y"
    ∧ (download_chapters net2 d0 [lit "1"] (lit " y") 10 fs0).fs.files ≠ []
    ∧ (download_chapters net2 d0 [lit "1"] (lit " y") 10 fs0).fs.ledger
        = some (lit "One Piece\n")
    ∧ (download_chapters net2 d0 [lit "1"] (lit " y") 10 fs0).reqs.count
        (Req.viewer (lit "One-Piece") (lit "0001")) = 2 := by
  decide

/-- C8 (amended): if the confirmation input, after stripping whitespace
and uppercasing, differs from "Y", the batch terminates with no side
effects beyond the counting pass: the filesystem (files, directories and
ledger) is unchanged, the GET trace is exactly the counting-pass trace
(zero fetch-phase requests), and no progress value is reported. -/
theorem C8_abort_no_side_effects (net : Net) (d : MangaDownloader) (chapters : List (List Nat))
    (input : List Nat) (fuel : Nat) (fs : FS)
    (h : pyUpperList (stripWs input) ≠ lit "Y") :
    (download_chapters net d chapters input fuel fs).fs = fs
    ∧ (download_chapters net d chapters input fuel fs).reqs
        = (countLoop net d fuel chapters [] 0).2
    ∧ (download_chapters net d chapters input fuel fs).reports = [] := by
  unfold download_chapters
  rcases hC : countLoop net d fuel chapters [] 0 with ⟨res, reqs⟩
  cases res with
  | error e => exact ⟨rfl, rfl, rfl⟩
  | ok pr =>
    rcases pr with ⟨pages, total⟩
    dsimp only
    rw [if_neg h]
    exact ⟨rfl, rfl, rfl⟩

/-- Witness for C8_abort_no_side_effects: answering "N" leaves the
filesystem untouched and issues only the counting-pass GETs. -/
theorem C8_abort_no_side_effects_witness :
    (download_chapters net2 d0 [lit "1"] (lit "N") 10 fs0).fs = fs0
    ∧ (download_chapters net2 d0 [lit "1"] (lit "N") 10 fs0).reqs
        = (countLoop net2 d0 10 [lit "1"] [] 0).2 := by
  have h := C8_abort_no_side_effects net2 d0 [lit "1"] (lit "N") 10 fs0 (by decide)
  exact ⟨h.1, h.2.1⟩

/-! ## Claim C9: the deduplicating ledger append -/

/-- C9 (counterexample): with the title "A\nA" (which contains a line
break) appended twice to an empty ledger, the resulting lines are four
copies of "A" and the exact title occurs zero times among them, not
exactly once — the claim fails for arbitrary title strings. -/
theorem C9_counterexample :
    (pySplitlines (save_history_content (save_history_content [] (lit "A\nA")) (lit "A\nA")))
        = [lit "A", lit "A", lit "A", lit "A"]
    ∧ (pySplitlines (save_history_content (save_history_content [] (lit "A\nA"))
          (lit "A\nA"))).count (lit "A\nA") = 0 := by
  decide

theorem splitlinesAux_nonbreak (c : Nat) (rest acc : List Nat) (hbr : isLineBreak c = false) :
    splitlinesAux (c :: rest) acc = splitlinesAux rest (c :: acc) := by
  have h13 : c ≠ 13 := by
    intro h
    subst h
    exact absurd hbr (by decide)
  rw [splitlinesAux.eq_def]
  rcases rest with _ | ⟨d, rest2⟩
  · simp [hbr]
  · by_cases hd : d = 10
    · subst hd
      simp [h13, hbr]
    · simp [h13, hd, hbr]

theorem splitlinesAux_newline (rest acc : List Nat) :
    splitlinesAux (10 :: rest) acc = acc.reverse :: splitlinesAux rest [] := by
  have h10 : isLineBreak 10 = true := by decide
  rw [splitlinesAux.eq_def]
  rcases rest with _ | ⟨d, rest2⟩
  · simp [h10]
  · by_cases hd : d = 10
    · subst hd
      simp [h10]
    · simp [hd, h10]

theorem splitlinesAux_line (l : List Nat) (hl : ∀ c ∈ l, isLineBreak c = false) :
    ∀ (r acc : List Nat),
      splitlinesAux (l ++ 10 :: r) acc = (acc.reverse ++ l) :: splitlinesAux r [] := by
  induction l with
  | nil =>
    intro r acc
    simp [splitlinesAux_newline]
  | cons c l2 ih =>
    intro r acc
    have hc := hl c (by simp)
    rw [List.cons_append, splitlinesAux_nonbreak c (l2 ++ 10 :: r) acc hc]
    rw [ih (fun x hx => hl x (List.mem_cons_of_mem c hx)) r (c :: acc)]
    simp

theorem pySplitlines_mkLedger (ls : List (List Nat))
    (hls : ∀ l ∈ ls, ∀ c ∈ l, isLineBreak c = false) :
    pySplitlines (mkLedger ls) = ls := by
  induction ls with
  | nil => rfl
  | cons l rest ih =>
    have hshape : mkLedger (l :: rest) = l ++ 10 :: mkLedger rest := rfl
    unfold pySplitlines
    rw [hshape, splitlinesAux_line l (hls l (by simp)) (mkLedger rest) []]
    have ih2 := ih (fun x hx => hls x (List.mem_cons_of_mem l hx))
    unfold pySplitlines at ih2
    rw [ih2]
    simp

theorem mkLedger_append_single (ls : List (List Nat)) (t : List Nat) :
    mkLedger (ls ++ [t]) = mkLedger ls ++ t ++ [10] := by
  induction ls with
  | nil => rfl
  | cons l rest ih =>
    have h1 : mkLedger ((l :: rest) ++ [t]) = l ++ 10 :: mkLedger (rest ++ [t]) := rfl
    have h2 : mkLedger (l :: rest) = l ++ 10 :: mkLedger rest := rfl
    rw [h1, h2, ih]
    simp

/-- C9 (amended): for every well-formed ledger (a sequence of
newline-terminated lines) and titles containing no line-break character:
if the exact title already equals one of the ledger's lines the append
is a no-op; otherwise it appends the title followed by a newline, so the
lines become the old lines plus the title.  Appending the same absent
title twice leaves exactly one occurrence among the lines, and appending
two distinct absent titles preserves both in insertion order. -/
theorem C9_dedup_append (ls : List (List Nat)) (t t2 : List Nat)
    (ht : ∀ c ∈ t, isLineBreak c = false)
    (ht2 : ∀ c ∈ t2, isLineBreak c = false)
    (hls : ∀ l ∈ ls, ∀ c ∈ l, isLineBreak c = false) :
    (t ∈ ls → save_history_content (mkLedger ls) t = mkLedger ls)
    ∧ (t ∉ ls → save_history_content (mkLedger ls) t = mkLedger (ls ++ [t]))
    ∧ (t ∉ ls →
        (pySplitlines (save_history_content (save_history_content (mkLedger ls) t) t)).count t
          = 1)
    ∧ (t ∉ ls → t2 ∉ ls → t ≠ t2 →
        pySplitlines (save_history_content (save_history_content (mkLedger ls) t) t2)
          = ls ++ [t, t2]) := by
  have hlines := pySplitlines_mkLedger ls hls
  have hlsT : ∀ l ∈ ls ++ [t], ∀ c ∈ l, isLineBreak c = false := by
    intro l hlmem
    rcases List.mem_append.mp hlmem with h2 | h2
    · exact hls l h2
    · rw [List.mem_singleton.mp h2]
      exact ht
  have happend : ∀ u : List Nat, u ∉ ls →
      save_history_content (mkLedger ls) u = mkLedger (ls ++ [u]) := by
    intro u hu
    unfold save_history_content
    rw [hlines, if_neg hu, mkLedger_append_single]
  refine ⟨?_, happend t, ?_, ?_⟩
  · intro hmem
    unfold save_history_content
    rw [hlines, if_pos hmem]
  · intro hnot
    rw [happend t hnot]
    have hsecond : save_history_content (mkLedger (ls ++ [t])) t = mkLedger (ls ++ [t]) := by
      unfold save_history_content
      rw [pySplitlines_mkLedger (ls ++ [t]) hlsT, if_pos (by simp)]
    rw [hsecond, pySplitlines_mkLedger (ls ++ [t]) hlsT]
    rw [List.count_append]
    rw [List.count_eq_zero.mpr hnot]
    simp
  · intro hnot hnot2 hne
    rw [happend t hnot]
    have hsecond : save_history_content (mkLedger (ls ++ [t])) t2
        = mkLedger ((ls ++ [t]) ++ [t2]) := by
      unfold save_history_content
      rw [pySplitlines_mkLedger (ls ++ [t]) hlsT]
      rw [if_neg (by
        intro hmem
        rcases List.mem_append.mp hmem with h2 | h2
        · exact hnot2 h2
        · exact hne (List.mem_singleton.mp h2).symm)]
      rw [mkLedger_append_single (ls ++ [t]) t2]
    rw [hsecond]
    rw [pySplitlines_mkLedger ((ls ++ [t]) ++ [t2]) (by
      intro l hlmem
      rcases List.mem_append.mp hlmem with h2 | h2
      · exact hlsT l h2
      · rw [List.mem_singleton.mp h2]
        exact ht2)]
    simp

/-- Witness for C9_dedup_append: appending the absent title "B" to a
one-line ledger appends it newline-terminated. -/
theorem C9_dedup_append_witness :
    save_history_content (mkLedger [lit "A"]) (lit "B") = mkLedger ([lit "A"] ++ [lit "B"]) := by
  have h := C9_dedup_append [lit "A"] (lit "B") (lit "C") (by decide) (by decide) (by decide)
  exact h.2.1 (by decide)

/-! ## Claim C10: directory creation at construction, and frame -/

theorem addIfAbsent_mem {α : Type} [DecidableEq α] (x y : α) (l : List α) (h : x ∈ l) :
    x ∈ addIfAbsent y l := by
  unfold addIfAbsent
  split
  · exact h
  · exact List.mem_append_left _ h

theorem addIfAbsent_self {α : Type} [DecidableEq α] (y : α) (l : List α) :
    y ∈ addIfAbsent y l := by
  unfold addIfAbsent
  split
  · assumption
  · simp

theorem foldl_addIfAbsent_mono {α : Type} [DecidableEq α] (x : α) :
    ∀ (ps : List α) (l : List α), x ∈ l → x ∈ ps.foldl (fun d q => addIfAbsent q d) l
  | [], _ => fun h => h
  | p :: ps, l => fun h =>
    foldl_addIfAbsent_mono x ps (addIfAbsent p l) (addIfAbsent_mem x p l h)

theorem foldl_addIfAbsent_mem {α : Type} [DecidableEq α] (x : α) :
    ∀ (ps : List α) (l : List α), x ∈ ps → x ∈ ps.foldl (fun d q => addIfAbsent q d) l
  | [], _ => fun h => absurd h (List.not_mem_nil x)
  | p :: ps, l => fun h => by
    rcases List.mem_cons.mp h with h2 | h2
    · subst h2
      exact foldl_addIfAbsent_mono x ps (addIfAbsent x l) (addIfAbsent_self x l)
    · exact foldl_addIfAbsent_mem x ps (addIfAbsent p l) h2

theorem mkdirParents_mono (p : List (List Nat)) (fs : FS) (q : List (List Nat))
    (h : q ∈ fs.dirs) : q ∈ (mkdirParents p fs).dirs :=
  foldl_addIfAbsent_mono q (pathPrefixes p) fs.dirs h

theorem pathPrefixes_self (p : List (List Nat)) (h : p ≠ []) : p ∈ pathPrefixes p := by
  unfold pathPrefixes
  have hlen : 0 < p.length := List.length_pos.mpr h
  refine List.mem_map.mpr ⟨p.length - 1, ?_, ?_⟩
  · exact List.mem_range.mpr (by omega)
  · have h2 : p.length - 1 + 1 = p.length := by omega
    rw [h2]
    exact List.take_length p

theorem mkdirParents_self (p : List (List Nat)) (fs : FS) (h : p ≠ []) :
    p ∈ (mkdirParents p fs).dirs :=
  foldl_addIfAbsent_mem p (pathPrefixes p) fs.dirs (pathPrefixes_self p h)

theorem download_image_dirs_mono (net : Net) (r : Req) (path : List (List Nat)) (fs : FS)
    (q : List (List Nat)) (h : q ∈ fs.dirs) : q ∈ (download_image net r path fs).1.2.dirs := by
  unfold download_image
  split
  · exact mkdirParents_mono path.dropLast fs q h
  · exact h

theorem downloadPages_dirs_mono (net : Net) (d : MangaDownloader) (fmt addr : List Nat)
    (folder : List (List Nat)) (ci tp total : Nat) (q : List (List Nat)) :
    ∀ (pages : List Nat) (fs : FS), q ∈ fs.dirs →
      q ∈ (downloadPages net d fmt addr folder ci tp total pages fs).2.1.dirs
  | [], fs => fun h => h
  | png :: rest, fs => fun h => by
    unfold downloadPages
    dsimp only
    rcases hD : download_image net (Req.page addr d.formatted_manga_name fmt png)
        (folder ++ [pad3 png ++ lit ".png"]) fs with ⟨⟨b, fs1⟩, reqs1⟩
    have h1 : q ∈ fs1.dirs := by
      have h2 := download_image_dirs_mono net (Req.page addr d.formatted_manga_name fmt png)
          (folder ++ [pad3 png ++ lit ".png"]) fs q h
      rw [hD] at h2
      exact h2
    cases b
    · exact downloadPages_dirs_mono net d fmt addr folder ci tp total q rest fs1 h1
    · rcases hcpb : colorful_progress_bar (ci * tp + png) total with e | v
      · exact h1
      · exact downloadPages_dirs_mono net d fmt addr folder ci tp total q rest fs1 h1

theorem download_chapter_images_dirs_mono (net : Net) (d : MangaDownloader)
    (tok : List Nat) (tp ci total : Nat) (fs : FS) (q : List (List Nat)) (h : q ∈ fs.dirs) :
    q ∈ (download_chapter_images net d tok tp ci total fs).fs.dirs := by
  unfold download_chapter_images
  rcases hf : format_chapter_number tok with _ | fmt
  · exact h
  · dsimp only
    rcases hE : extract_text_from_url net d fmt with ⟨v, rs⟩
    rcases v with e | a
    · exact h
    · rcases a with _ | ⟨_ | ⟨c, cs⟩⟩
      · exact h
      · exact h
      · dsimp only
        have h1 : q ∈ (mkdirParents (d.manga_folder ++ [lit "Chapter-" ++ fmt]) fs).dirs :=
          mkdirParents_mono _ fs q h
        rcases hDP : downloadPages net d fmt (c :: cs) (d.manga_folder ++ [lit "Chapter-" ++ fmt])
            ci tp total (List.range' 1 tp)
            (mkdirParents (d.manga_folder ++ [lit "Chapter-" ++ fmt]) fs)
            with ⟨res, fs2, reqs2, reps⟩
        have h3 := downloadPages_dirs_mono net d fmt (c :: cs)
            (d.manga_folder ++ [lit "Chapter-" ++ fmt]) ci tp total q (List.range' 1 tp)
            (mkdirParents (d.manga_folder ++ [lit "Chapter-" ++ fmt]) fs) h1
        rw [hDP] at h3
        simp only at h3
        cases res <;> exact h3

theorem fetchLoop_dirs_mono (net : Net) (d : MangaDownloader) (pages : List (List Nat × Nat))
    (total : Nat) (q : List (List Nat)) :
    ∀ (toks : List (List Nat)) (idx : Nat) (fs : FS), q ∈ fs.dirs →
      q ∈ (fetchLoop net d pages total toks idx fs).2.1.dirs
  | [], _, fs => fun h => h
  | t :: rest, idx, fs => fun h => by
    unfold fetchLoop
    rcases dictLookup pages t with _ | tp
    · exact h
    · dsimp only
      rcases hD : download_chapter_images net d t tp idx total fs with ⟨res, fs1, reqs1, reps1⟩
      have h1 : q ∈ fs1.dirs := by
        have h2 := download_chapter_images_dirs_mono net d t tp idx total fs q h
        rw [hD] at h2
        exact h2
      rcases res with e | b
      · exact h1
      · exact fetchLoop_dirs_mono net d pages total q rest (idx + 1) fs1 h1

theorem save_history_dirs (title : List Nat) (fs : FS) : (save_history title fs).dirs = fs.dirs := rfl

theorem download_chapters_dirs_mono (net : Net) (d : MangaDownloader)
    (chapters : List (List Nat)) (input : List Nat) (fuel : Nat) (fs : FS)
    (q : List (List Nat)) (h : q ∈ fs.dirs) :
    q ∈ (download_chapters net d chapters input fuel fs).fs.dirs := by
  unfold download_chapters
  rcases countLoop net d fuel chapters [] 0 with ⟨res, reqs⟩
  rcases res with e | pr
  · exact h
  · rcases pr with ⟨pages, total⟩
    dsimp only
    split
    · rcases hF : fetchLoop net d pages total chapters 0 fs with ⟨res2, fs1, reqs2, reps⟩
      have h1 : q ∈ fs1.dirs := by
        have h2 := fetchLoop_dirs_mono net d pages total q chapters 0 fs h
        rw [hF] at h2
        exact h2
      rcases res2 with e | u
      · exact h1
      · rcases colorful_progress_bar total total with e | v
        · exact h1
        · rw [save_history_dirs]
          exact h1
    · exact h

/-- C10: constructing a downloader instance immediately creates the
MANGA/<slug> directory (with its parent) as a side effect of
construction alone, for every title and mode-flag combination, while
preserving every existing directory; and no operation of the instance
(batch download with any confirmation answer, ledger append, history
display) removes any directory: download_chapters only ever adds
directories, save_history leaves them unchanged, and load_history leaves
the whole filesystem unchanged. -/
theorem C10_init_creates_dir :
    (∀ (raw : List Nat) (u e : Bool) (fs : FS),
      (mkDownloader raw u e fs).1.manga_folder ∈ (mkDownloader raw u e fs).2.dirs
      ∧ (mkDownloader raw u e fs).1.manga_folder = [lit "MANGA", slugify raw u e])
    ∧ (∀ (raw : List Nat) (u e : Bool) (fs : FS) (q : List (List Nat)),
        q ∈ fs.dirs → q ∈ (mkDownloader raw u e fs).2.dirs)
    ∧ (∀ (net : Net) (d : MangaDownloader) (chapters : List (List Nat)) (input : List Nat)
        (fuel : Nat) (fs : FS) (q : List (List Nat)), q ∈ fs.dirs →
        q ∈ (download_chapters net d chapters input fuel fs).fs.dirs)
    ∧ (∀ (title : List Nat) (fs : FS), (save_history title fs).dirs = fs.dirs)
    ∧ (∀ fs : FS, (load_history fs).2 = fs) := by
  refine ⟨?_, ?_, download_chapters_dirs_mono, save_history_dirs, fun _ => rfl⟩
  · intro raw u e fs
    constructor
    · exact mkdirParents_self _ fs (by simp)
    · rfl
  · intro raw u e fs q h
    exact mkdirParents_mono _ fs q h

/-- Witness for C10_init_creates_dir: a pre-existing directory survives
a whole batch invocation, and construction registers MANGA/<slug>. -/
theorem C10_init_creates_dir_witness :
    [lit "Z"] ∈ (download_chapters net404 d0 [] (lit "N") 1
        ⟨[[lit "Z"]], [], none⟩).fs.dirs
    ∧ [lit "MANGA", lit "One-Piece"]
        ∈ (mkDownloader (lit "one piece") false false fs0).2.dirs := by
  constructor
  · exact C10_init_creates_dir.2.2.1 net404 d0 [] (lit "N") 1 ⟨[[lit "Z"]], [], none⟩
      [lit "Z"] (by decide)
  · have h := (C10_init_creates_dir.1 (lit "one piece") false false fs0).1
    have h2 := (C10_init_creates_dir.1 (lit "one piece") false false fs0).2
    rw [h2] at h
    have h3 : slugify (lit "one piece") false false = lit "One-Piece" := by decide
    rw [h3] at h
    exact h

/-! ## Claim C4: batch totality -/

theorem isDigitCp_iff (c : Nat) : isDigitCp c = true ↔ 48 ≤ c ∧ c ≤ 57 := by
  simp [isDigitCp]

theorem natDigitsAux_digits : ∀ (fuel n : Nat), ∀ c ∈ natDigitsAux fuel n, 48 ≤ c ∧ c ≤ 57
  | 0, n => by simp [natDigitsAux]
  | fuel + 1, n => by
    intro c hc
    unfold natDigitsAux at hc
    by_cases h : n < 10
    · rw [if_pos h] at hc
      simp at hc
      omega
    · rw [if_neg h] at hc
      rcases List.mem_append.mp hc with h2 | h2
      · exact natDigitsAux_digits fuel (n / 10) c h2
      · simp at h2
        have h3 : n % 10 < 10 := Nat.mod_lt n (by omega)
        omega

theorem natDigits_digits (n : Nat) : ∀ c ∈ natDigits n, 48 ≤ c ∧ c ≤ 57 :=
  natDigitsAux_digits (n + 1) n

theorem natDigits_ne_nil (n : Nat) : natDigits n ≠ [] := by
  unfold natDigits natDigitsAux
  by_cases h : n < 10
  · rw [if_pos h]
    simp
  · rw [if_neg h]
    simp

theorem padZeros_digits (w : Nat) (l : List Nat) (h : ∀ c ∈ l, 48 ≤ c ∧ c ≤ 57) :
    ∀ c ∈ padZeros w l, 48 ≤ c ∧ c ≤ 57 := by
  intro c hc
  unfold padZeros at hc
  rcases List.mem_append.mp hc with h2 | h2
  · have h3 := List.eq_of_mem_replicate h2
    omega
  · exact h c h2

theorem padZeros_ne_nil (w : Nat) (l : List Nat) (h : l ≠ []) : padZeros w l ≠ [] := by
  unfold padZeros
  intro h2
  exact h (List.append_eq_nil.mp h2).2

theorem digitsToNat_isSome (l : List Nat) (h1 : l ≠ []) (h2 : ∀ c ∈ l, 48 ≤ c ∧ c ≤ 57) :
    (digitsToNat l).isSome := by
  unfold digitsToNat
  rw [if_pos ⟨h1, fun c hc => (isDigitCp_iff c).mpr (h2 c hc)⟩]
  rfl

theorem dropWhile_eq_self_of_none (p : Nat → Bool) :
    ∀ l : List Nat, (∀ c ∈ l, p c = false) → l.dropWhile p = l
  | [] => fun _ => rfl
  | c :: rest => fun h => by
    rw [List.dropWhile_cons, h c (by simp)]
    simp

theorem stripWs_eq_self (l : List Nat) (h : ∀ c ∈ l, isPySpace c = false) : stripWs l = l := by
  unfold stripWs
  rw [dropWhile_eq_self_of_none _ l h]
  rw [dropWhile_eq_self_of_none _ l.reverse (fun c hc => h c (List.mem_reverse.mp hc))]
  exact List.reverse_reverse l

theorem not_space_of_ge (c : Nat) (h : 33 ≤ c) : isPySpace c = false := by
  rw [← Bool.not_eq_true, isPySpace_iff]
  omega

theorem pyInt_isSome_of_digits (l : List Nat) (h1 : l ≠ []) (h2 : ∀ c ∈ l, 48 ≤ c ∧ c ≤ 57) :
    (pyInt l).isSome := by
  have hstrip : stripWs l = l :=
    stripWs_eq_self l (fun c hc => not_space_of_ge c (by have := h2 c hc; omega))
  rcases l with _ | ⟨c, ds⟩
  · exact absurd rfl h1
  · have hc := h2 c (by simp)
    unfold pyInt
    rw [hstrip]
    dsimp only
    rw [if_neg (by omega), if_neg (by omega)]
    have h3 := digitsToNat_isSome (c :: ds) (by simp) h2
    rcases h4 : digitsToNat (c :: ds) with _ | n
    · rw [h4] at h3
      simp at h3
    · rfl

theorem pyInt_pad4_isSome (i : Int) : (pyInt (pad4 i)).isSome := by
  unfold pad4
  by_cases h : i < 0
  · rw [if_pos h]
    have hdig : ∀ c ∈ padZeros 3 (natDigits i.natAbs), 48 ≤ c ∧ c ≤ 57 :=
      padZeros_digits 3 _ (natDigits_digits _)
    have hstrip : stripWs (45 :: padZeros 3 (natDigits i.natAbs))
        = 45 :: padZeros 3 (natDigits i.natAbs) := by
      apply stripWs_eq_self
      intro c hc
      rcases List.mem_cons.mp hc with h2 | h2
      · subst h2
        decide
      · exact not_space_of_ge c (by have := hdig c h2; omega)
    unfold pyInt
    rw [hstrip]
    dsimp only
    rw [if_neg (by decide), if_pos rfl]
    have h3 := digitsToNat_isSome _ (padZeros_ne_nil 3 _ (natDigits_ne_nil _)) hdig
    rcases h4 : digitsToNat (padZeros 3 (natDigits i.natAbs)) with _ | n
    · rw [h4] at h3
      simp at h3
    · rfl
  · rw [if_neg h]
    exact pyInt_isSome_of_digits _ (padZeros_ne_nil 4 _ (natDigits_ne_nil _))
      (padZeros_digits 4 _ (natDigits_digits _))

theorem pad4_no_dot (i : Int) : 46 ∉ pad4 i := by
  unfold pad4
  split
  · intro hmem
    rcases List.mem_cons.mp hmem with h2 | h2
    · exact absurd h2 (by decide)
    · have h3 := padZeros_digits 3 _ (natDigits_digits _) 46 h2
      omega
  · intro hmem
    have h3 := padZeros_digits 4 _ (natDigits_digits _) 46 hmem
    omega

theorem splitOnDot_ne_nil : ∀ s : List Nat, splitOnDot s ≠ []
  | [] => by simp [splitOnDot]
  | c :: rest => by
    unfold splitOnDot
    split
    · simp
    · rcases h : splitOnDot rest with _ | ⟨h2, t⟩
      · simp
      · simp

theorem splitOnDot_cons (c : Nat) (rest : List Nat) :
    splitOnDot (c :: rest) =
      if c = 46 then [] :: splitOnDot rest
      else
        match splitOnDot rest with
        | [] => [[c]]
        | h :: t => (c :: h) :: t := by
  rw [splitOnDot]

theorem splitOnDot_no_dot : ∀ y : List Nat, 46 ∉ y → splitOnDot y = [y]
  | [] => fun _ => rfl
  | c :: rest => fun h => by
    unfold splitOnDot
    rw [if_neg (fun hc => h (by simp [hc]))]
    rw [splitOnDot_no_dot rest (fun hm => h (List.mem_cons_of_mem c hm))]

theorem splitOnDot_append (y : List Nat) :
    ∀ x : List Nat, 46 ∉ x → splitOnDot (x ++ 46 :: y) = x :: splitOnDot y
  | [] => fun _ => by
    show splitOnDot (46 :: y) = [] :: splitOnDot y
    rw [splitOnDot_cons, if_pos rfl]
  | c :: x2 => fun hx => by
    have hc : c ≠ 46 := fun h => hx (by simp [h])
    have h2 : (c :: x2) ++ 46 :: y = c :: (x2 ++ 46 :: y) := rfl
    rw [h2]
    rw [splitOnDot_cons, if_neg hc]
    rw [splitOnDot_append y x2 (fun hm => hx (List.mem_cons_of_mem c hm))]

theorem splitOnDot_parts_no_dot : ∀ s : List Nat, ∀ p ∈ splitOnDot s, 46 ∉ p
  | [] => by
    intro p hp
    simp [splitOnDot] at hp
    subst hp
    simp
  | c :: rest => by
    intro p hp
    unfold splitOnDot at hp
    by_cases hc : c = 46
    · rw [if_pos hc] at hp
      rcases List.mem_cons.mp hp with h2 | h2
      · subst h2
        simp
      · exact splitOnDot_parts_no_dot rest p h2
    · rw [if_neg hc] at hp
      rcases hsp : splitOnDot rest with _ | ⟨h1, t⟩
      · rw [hsp] at hp
        simp at hp
        subst hp
        simp
        omega
      · rw [hsp] at hp
        rcases List.mem_cons.mp hp with h2 | h2
        · subst h2
          intro hmem
          rcases List.mem_cons.mp hmem with h3 | h3
          · exact hc h3.symm
          · exact splitOnDot_parts_no_dot rest h1 (by rw [hsp]; simp) h3
        · exact splitOnDot_parts_no_dot rest p (by rw [hsp]; simp [h2])

theorem format_refmt (tok fmt : List Nat) (h : format_chapter_number tok = some fmt) :
    (format_chapter_number fmt).isSome := by
  unfold format_chapter_number at h
  by_cases hdot : 46 ∈ tok
  · rw [if_pos hdot] at h
    rcases hsp : splitOnDot tok with _ | ⟨a, rest⟩
    · rw [hsp] at h
      simp at h
    · rcases rest with _ | ⟨b, rest2⟩
      · rw [hsp] at h
        simp at h
      · rcases rest2 with _ | ⟨e, rest3⟩
        · rw [hsp] at h
          dsimp only at h
          rcases hint : pyInt a with _ | i
          · rw [hint] at h
            simp at h
          · rw [hint] at h
            simp only [Option.some.injEq] at h
            subst h
            unfold format_chapter_number
            rw [if_pos (by simp)]
            have hb : 46 ∉ b := splitOnDot_parts_no_dot tok b (by rw [hsp]; simp)
            rw [splitOnDot_append b (pad4 i) (pad4_no_dot i), splitOnDot_no_dot b hb]
            dsimp only
            have h5 := pyInt_pad4_isSome i
            rcases h6 : pyInt (pad4 i) with _ | j
            · rw [h6] at h5
              simp at h5
            · rfl
        · rw [hsp] at h
          simp at h
  · rw [if_neg hdot] at h
    rcases hint : pyInt tok with _ | i
    · rw [hint] at h
      simp at h
    · rw [hint] at h
      simp only [Option.some.injEq] at h
      subst h
      unfold format_chapter_number
      rw [if_neg (pad4_no_dot i)]
      have h5 := pyInt_pad4_isSome i
      rcases h6 : pyInt (pad4 i) with _ | j
      · rw [h6] at h5
        simp at h5
      · rfl

theorem extract_ok_of_format (net : Net) (d : MangaDownloader) (arg : List Nat)
    (h : (format_chapter_number arg).isSome) :
    ∃ v rs, extract_text_from_url net d arg = (Except.ok v, rs) := by
  unfold extract_text_from_url
  rcases hf : format_chapter_number arg with _ | fmt2
  · rw [hf] at h
    simp at h
  · dsimp only
    by_cases hs : (net (Req.viewer d.formatted_manga_name fmt2)).status = 200
    · rw [if_pos hs]
      by_cases ht : isTruthyOpt (extract_text_from_html
          (net (Req.viewer d.formatted_manga_name fmt2)).body) = true
      · rw [if_pos ht]
        exact ⟨_, _, rfl⟩
      · rw [if_neg ht]
        exact ⟨_, _, rfl⟩
    · rw [if_neg hs]
      exact ⟨_, _, rfl⟩

theorem downloadPages_ok (net : Net) (d : MangaDownloader) (fmt addr : List Nat)
    (folder : List (List Nat)) (ci tp total : Nat) (htotal : total ≠ 0) :
    ∀ (pages : List Nat) (fs : FS),
      (downloadPages net d fmt addr folder ci tp total pages fs).1 = .ok ()
  | [], _ => rfl
  | png :: rest, fs => by
    unfold downloadPages
    dsimp only
    rcases hD : download_image net (Req.page addr d.formatted_manga_name fmt png)
        (folder ++ [pad3 png ++ lit ".png"]) fs with ⟨⟨b, fs1⟩, reqs1⟩
    cases b
    · exact downloadPages_ok net d fmt addr folder ci tp total htotal rest fs1
    · have hcpb : colorful_progress_bar (ci * tp + png) total
          = .ok (min (ci * tp + png) total) := by
        simp [colorful_progress_bar, htotal]
      rw [hcpb]
      exact downloadPages_ok net d fmt addr folder ci tp total htotal rest fs1

theorem download_chapter_images_ok (net : Net) (d : MangaDownloader) (tok : List Nat)
    (tp ci total : Nat) (fs : FS)
    (hfmt : (format_chapter_number tok).isSome) (htotal : total ≠ 0) :
    ∃ b, (download_chapter_images net d tok tp ci total fs).res = .ok b := by
  rcases hf : format_chapter_number tok with _ | fmt
  · rw [hf] at hfmt
    simp at hfmt
  · obtain ⟨v, rs, hE⟩ := extract_ok_of_format net d fmt (format_refmt tok fmt hf)
    unfold download_chapter_images
    simp only [hf]
    rw [hE]
    rcases v with _ | a
    · exact ⟨false, rfl⟩
    · rcases a with _ | ⟨c, cs⟩
      · exact ⟨false, rfl⟩
      · dsimp only
        have hok := downloadPages_ok net d fmt (c :: cs)
            (d.manga_folder ++ [lit "Chapter-" ++ fmt]) ci tp total htotal
            (List.range' 1 tp) (mkdirParents (d.manga_folder ++ [lit "Chapter-" ++ fmt]) fs)
        rcases hDP : downloadPages net d fmt (c :: cs)
            (d.manga_folder ++ [lit "Chapter-" ++ fmt]) ci tp total (List.range' 1 tp)
            (mkdirParents (d.manga_folder ++ [lit "Chapter-" ++ fmt]) fs)
            with ⟨res, fs2, reqs2, reps⟩
        rw [hDP] at hok
        simp only at hok
        subst hok
        exact ⟨true, rfl⟩

theorem dictLookup_dictInsert_self :
    ∀ (l : List (List Nat × Nat)) (k : List Nat) (v : Nat),
      dictLookup (dictInsert l k v) k = some v
  | [], k, v => by simp [dictInsert, dictLookup]
  | (k2, v2) :: rest, k, v => by
    unfold dictInsert
    by_cases h : k2 = k
    · rw [if_pos h]
      unfold dictLookup
      rw [if_pos h]
    · rw [if_neg h]
      unfold dictLookup
      rw [if_neg h]
      exact dictLookup_dictInsert_self rest k v

theorem dictLookup_dictInsert_mono :
    ∀ (l : List (List Nat × Nat)) (k : List Nat) (v : Nat) (k2 : List Nat),
      (dictLookup l k2).isSome → (dictLookup (dictInsert l k v) k2).isSome
  | [], k, v, k2 => by simp [dictLookup]
  | (k3, v3) :: rest, k, v, k2 => fun h => by
    unfold dictLookup at h
    unfold dictInsert
    by_cases h3 : k3 = k
    · rw [if_pos h3]
      unfold dictLookup
      by_cases h4 : k3 = k2
      · rw [if_pos h4]
        rfl
      · rw [if_neg h4]
        rw [if_neg h4] at h
        exact h
    · rw [if_neg h3]
      unfold dictLookup
      by_cases h4 : k3 = k2
      · rw [if_pos h4]
        rfl
      · rw [if_neg h4]
        rw [if_neg h4] at h
        exact dictLookup_dictInsert_mono rest k v k2 h

theorem count_ok_format (net : Net) (d : MangaDownloader) (t : List Nat) (fuel n : Nat)
    (reqs : List Req) (h : count_pages_in_chapter net d t fuel = (.ok n, reqs)) :
    (format_chapter_number t).isSome := by
  unfold count_pages_in_chapter at h
  rcases hf : format_chapter_number t with _ | fmt
  · rw [hf] at h
    simp at h
  · rfl

theorem countLoop_props (net : Net) (d : MangaDownloader) (fuel : Nat) :
    ∀ (toks : List (List Nat)) (acc : List (List Nat × Nat)) (tot : Nat)
      (pages : List (List Nat × Nat)) (total : Nat) (reqs : List Req),
      countLoop net d fuel toks acc tot = (.ok (pages, total), reqs) →
      (∀ t, (dictLookup acc t).isSome → (dictLookup pages t).isSome)
      ∧ (∀ t ∈ toks, (format_chapter_number t).isSome ∧ (dictLookup pages t).isSome)
  | [], acc, tot, pages, total, reqs => fun h => by
    unfold countLoop at h
    simp only [Prod.mk.injEq, Except.ok.injEq] at h
    obtain ⟨⟨hp, _⟩, _⟩ := h
    subst hp
    exact ⟨fun t h2 => h2, by simp⟩
  | t0 :: rest, acc, tot, pages, total, reqs => fun h => by
    unfold countLoop at h
    rcases hC : count_pages_in_chapter net d t0 fuel with ⟨res1, reqs1⟩
    rw [hC] at h
    rcases res1 with e | n
    · simp at h
    · dsimp only at h
      rcases hC2 : countLoop net d fuel rest (dictInsert acc t0 n) (tot + n)
          with ⟨res2, reqs2⟩
      rw [hC2] at h
      simp only [Prod.mk.injEq] at h
      obtain ⟨hres2, _⟩ := h
      obtain ⟨hpre, hall⟩ := countLoop_props net d fuel rest (dictInsert acc t0 n) (tot + n)
          pages total reqs2 (by rw [hC2, hres2])
      refine ⟨fun t h2 => hpre t (dictLookup_dictInsert_mono acc t0 n t h2), ?_⟩
      intro t ht
      rcases List.mem_cons.mp ht with h2 | h2
      · subst h2
        refine ⟨count_ok_format net d t fuel n reqs1 hC, ?_⟩
        exact hpre t (by rw [dictLookup_dictInsert_self]; rfl)
      · exact hall t h2

theorem fetchLoop_ok (net : Net) (d : MangaDownloader) (pages : List (List Nat × Nat))
    (total : Nat) (htotal : total ≠ 0) :
    ∀ toks : List (List Nat),
      (∀ t ∈ toks, (format_chapter_number t).isSome ∧ (dictLookup pages t).isSome) →
      ∀ (idx : Nat) (fs : FS), (fetchLoop net d pages total toks idx fs).1 = .ok ()
  | [] => fun _ _ _ => rfl
  | t :: rest => fun hall idx fs => by
    unfold fetchLoop
    obtain ⟨hfmt, hlk⟩ := hall t (by simp)
    rcases hL : dictLookup pages t with _ | tp
    · rw [hL] at hlk
      simp at hlk
    · dsimp only
      obtain ⟨b, hb⟩ := download_chapter_images_ok net d t tp idx total fs hfmt htotal
      rcases hD : download_chapter_images net d t tp idx total fs with ⟨res, fs1, reqs1, reps1⟩
      rw [hD] at hb
      simp only at hb
      subst hb
      exact fetchLoop_ok net d pages total htotal rest
          (fun t2 ht2 => hall t2 (List.mem_cons_of_mem t ht2)) (idx + 1) fs1

/-- C4 (counterexample): the chapter token "abc" has no parseable
integer part, so format_chapter_number raises and the exception escapes
the batch boundary: download_chapters evaluates to a ValueError rather
than running to completion. -/
theorem C4_counterexample :
    (download_chapters net404 d0 [lit "abc"] (lit "Y") 10 fs0).res
      = .error .valueError := by
  decide

/-- C4 (amended): provided the counting pass completes (every chapter
token parses and every probe terminates) and the counted total is
nonzero, the batch driver runs to completion over every requested
chapter with no escaping exception, for every confirmation input and
every pattern of per-page network statuses; a token whose integer part
does not parse instead raises ValueError out of the batch, and a
confirmed batch whose counted total is zero raises ZeroDivisionError at
the forced-completion progress call. -/
theorem C4_batch_totality (net : Net) (d : MangaDownloader) (chapters : List (List Nat))
    (input : List Nat) (fuel : Nat) (fs : FS) (pages : List (List Nat × Nat))
    (total : Nat) (reqs : List Req)
    (hc : countLoop net d fuel chapters [] 0 = (.ok (pages, total), reqs))
    (htotal : total ≠ 0) :
    (download_chapters net d chapters input fuel fs).res = .ok () := by
  unfold download_chapters
  rw [hc]
  dsimp only
  by_cases hgate : pyUpperList (stripWs input) = lit "Y"
  · rw [if_pos hgate]
    obtain ⟨_, hall⟩ := countLoop_props net d fuel chapters [] 0 pages total reqs hc
    have hF := fetchLoop_ok net d pages total htotal chapters hall 0 fs
    rcases hFL : fetchLoop net d pages total chapters 0 fs with ⟨res, fs1, reqs2, reps⟩
    rw [hFL] at hF
    simp only at hF
    subst hF
    have hcpb : colorful_progress_bar total total = .ok (min total total) := by
      simp [colorful_progress_bar, htotal]
    rw [hcpb]
  · rw [if_neg hgate]

/-- Witness for C4_batch_totality at a concrete two-page batch. -/
theorem C4_batch_totality_witness :
    (download_chapters netW d0 [lit "1"] (lit "Y") 10 fs0).res = .ok () := by
  refine C4_batch_totality netW d0 [lit "1"] (lit "Y") 10 fs0 [(lit "1", 2)] 2
      [Req.viewer (lit "One-Piece") (lit "0001"),
       Req.page (lit "h") (lit "One-Piece") (lit "0001") 1,
       Req.page (lit "h") (lit "One-Piece") (lit "0001") 2,
       Req.page (lit "h") (lit "One-Piece") (lit "0001") 3] ?_ (by decide)
  decide
